import Mathlib

/-!
Verification of the UFFA correlation-function pipeline.

This file gives a shallow embedding of the parts of the UFFA repository
that the checked claims are about:

* `src/UFFA/Utils/CorrelationUtils.py` : `Reweight2d`, `Normalize`,
  `Recenter`, `RescaleGraph`, the projection helpers;
* `src/UFFA/Utils/HistUtils.py` : `FindBinWithUpperEdgeDetection`,
  `SetHistRanges`, `RescaleHist`;
* `src/UFFA/CorrelationHandler.py` : the constructor's argument
  sanitisation and the `FinalTouch` pipeline;
* `src/UFFA/AnalysisHandler.py` : `_GenerateConfigurations`,
  `_GetConfigName`.

Modelling conventions:
* Bin contents, bin edges and ranges are rationals (the Python code uses
  IEEE doubles; every operation involved in the claims is field
  arithmetic, so `ℚ` models the exact-arithmetic behaviour).
* ROOT histograms store the per-bin sum of squared weights; `GetBinError`
  is its square root.  The embedding tracks the squared quantities
  (`w2` on histograms, `ex2`/`ey2` on graph points) so that every
  definition stays executable; a statement about an "error" is stated
  about its square.
* ROOT bins are numbered from 1; bin `i` of an axis with edge function
  `edge : ℕ → ℚ` spans `[edge (i-1), edge i)`.  Index 0 plays the role
  of the underflow bin.
* Histograms are modelled structurally (axes + content functions);
  names and titles, which the Python code only uses as output keys, are
  not modelled.
-/
/-- A ROOT `TAxis`: `n` bins with edges `edge 0 < edge 1 < ... < edge n`.
Bin `i` (for `1 ≤ i ≤ n`) spans `[edge (i-1), edge i)`. -/
structure Axis where
  n : ℕ
  edge : ℕ → ℚ

namespace Axis

/-- `TAxis::FindBin` (equivalently `FindFixBin`; none of the modelled call
sites have an axis zoom active): values below `edge 0` fall into the
underflow bin 0; otherwise the bin index is one plus the number of
internal edges `edge 1, …, edge n` that are `≤ v`, so a value sitting
exactly on a bin's lower edge is assigned to the bin starting there and
values `≥ edge n` land in the overflow bin `n+1`. -/
def FindBin (a : Axis) (v : ℚ) : ℕ :=
  if v < a.edge 0 then 0
  else 1 + ((List.range a.n).filter (fun j => a.edge (j + 1) ≤ v)).length

/-- `TAxis::GetBinLowEdge` for in-range bins. -/
def GetBinLowEdge (a : Axis) (i : ℕ) : ℚ := a.edge (i - 1)

/-- The axis edges are strictly increasing (ROOT invariant). -/
def Mono (a : Axis) : Prop := ∀ i j, i < j → j ≤ a.n → a.edge i < a.edge j

end Axis

/-- A ROOT `TH1`: one axis together with per-bin content and per-bin sum
of squared weights (`Sumw2`).  `cont i` / `w2 i` for `1 ≤ i ≤ n` are the
in-range bins. -/
structure Hist1 where
  n : ℕ
  edge : ℕ → ℚ
  cont : ℕ → ℚ
  w2 : ℕ → ℚ

namespace Hist1

/-- The axis of a 1-D histogram. -/
def axis (h : Hist1) : Axis := ⟨h.n, h.edge⟩

/-- `TH1::FindBin`. -/
def FindBin (h : Hist1) (v : ℚ) : ℕ := h.axis.FindBin v

/-- `TH1::GetBinLowEdge`. -/
def GetBinLowEdge (h : Hist1) (i : ℕ) : ℚ := h.edge (i - 1)

/-- `TH1::GetBinCenter`. -/
def GetBinCenter (h : Hist1) (i : ℕ) : ℚ := (h.edge (i - 1) + h.edge i) / 2

/-- `TH1::GetBinWidth`. -/
def GetBinWidth (h : Hist1) (i : ℕ) : ℚ := h.edge i - h.edge (i - 1)

/-- The list of bin indices `a, a+1, …, b`. -/
def binRange (a b : ℕ) : List ℕ := List.range' a (b + 1 - a)

/-- `TH1::Integral(a, b, "width")`: sum of `content · width` over bins
`a … b`. -/
def IntegralW (h : Hist1) (a b : ℕ) : ℚ :=
  ((binRange a b).map (fun i => h.cont i * (h.edge i - h.edge (i - 1)))).sum

/-- `TH1::Integral(a, b)` (no option): sum of contents over bins `a … b`. -/
def Integral (h : Hist1) (a b : ℕ) : ℚ :=
  ((binRange a b).map h.cont).sum

/-- `TH1::Scale(c)`: multiply every content by `c` and every stored
squared weight by `c²`. -/
def Scale (h : Hist1) (c : ℚ) : Hist1 :=
  { h with cont := fun i => c * h.cont i, w2 := fun i => c ^ 2 * h.w2 i }

end Hist1

/-!
## `CorrelationUtils.Normalize`

```python
def Normalize(distribution, range):
    LowerBound = range[0]
    UpperBound = range[1]
    LowerBin = distribution.FindBin(LowerBound)
    LowerEdge = distribution.GetBinLowEdge(LowerBin)
    UpperBin = distribution.FindBin(UpperBound)
    UpperEdge = distribution.GetBinLowEdge(UpperBin + 1)
    Dist_Integral = distribution.Integral(LowerBin, UpperBin, "width")
    try:
        distribution.Scale((UpperEdge - LowerEdge) / Dist_Integral)
    except:
        print("Integral in normalization range is zero")
    return distribution
```

`NormalizeRun` returns the (possibly scaled) distribution together with
a flag recording whether the `except` branch was taken, i.e. whether the
zero-integral condition was caught and reported instead of propagating:
in Python `Scale(x / 0.0)` raises `ZeroDivisionError`, the bare `except`
swallows it, prints the diagnostic, and the unmodified distribution is
returned.
-/
/-- The snapped lower edge used by `Normalize`:
`GetBinLowEdge(FindBin(lo))`. -/
def NormLowerEdge (d : Hist1) (lo : ℚ) : ℚ := d.GetBinLowEdge (d.FindBin lo)

/-- The snapped upper edge used by `Normalize`:
`GetBinLowEdge(FindBin(hi) + 1)`, i.e. the upper edge of the bin
containing `hi`. -/
def NormUpperEdge (d : Hist1) (hi : ℚ) : ℚ := d.edge (d.FindBin hi)

/-- The integral computed by `Normalize`: bin-width-weighted sum over the
whole bins `FindBin(lo) … FindBin(hi)`. -/
def NormIntegral (d : Hist1) (lo hi : ℚ) : ℚ :=
  d.IntegralW (d.FindBin lo) (d.FindBin hi)

/-- `CorrelationUtils.Normalize`, with the caught-exception branch made
explicit: the second component is `true` exactly when the scale raised
(integral zero) and the distribution was returned unchanged. -/
def NormalizeRun (d : Hist1) (lo hi : ℚ) : Hist1 × Bool :=
  if NormIntegral d lo hi = 0 then (d, true)
  else (d.Scale ((NormUpperEdge d hi - NormLowerEdge d lo) / NormIntegral d lo hi), false)

/-- `CorrelationUtils.Normalize` (the returned histogram). -/
def Normalize (d : Hist1) (lo hi : ℚ) : Hist1 := (NormalizeRun d lo hi).1

/-- Concrete 2-bin histogram with edges `[0,1,2]` and contents `[1,3]`,
used as a counterexample input. -/
def normCex : Hist1 :=
  { n := 2
    edge := fun i => [(0 : ℚ), 1, 2].getD i 0
    cont := fun i => [(0 : ℚ), 1, 3].getD i 0
    w2 := fun i => [(0 : ℚ), 1, 3].getD i 0 }

/-!
## `HistUtils.FindBinWithUpperEdgeDetection` and `HistUtils.SetHistRanges`

```python
def FindBinWithUpperEdgeDetection(Axis, Value):
    FoundBin = Axis.FindBin(Value)
    edge = Axis.GetBinLowEdge(FoundBin)
    if abs(Value - edge) < 1e-7 and FoundBin != 1:
        FoundBin -= 1
    return FoundBin
```

`SetHistRanges` dispatches on the dimension: for 1-D/2-D/3-D histograms
it calls ROOT's `TAxis::SetRangeUser` on each axis with a configured
range; for `THn` it computes the bin window per axis with `FindBin` for
the lower cut and `FindBinWithUpperEdgeDetection` for the upper cut and
applies `SetRange`.
-/
/-- `HistUtils.FindBinWithUpperEdgeDetection`. -/
def FindBinWithUpperEdgeDetection (a : Axis) (v : ℚ) : ℕ :=
  let FoundBin := a.FindBin v
  let edge := a.GetBinLowEdge FoundBin
  if |v - edge| < 1 / 10 ^ 7 ∧ FoundBin ≠ 1 then FoundBin - 1 else FoundBin

/-- Modelled from ROOT `TAxis::SetRangeUser` (external library; this is
what the 1-D/2-D/3-D branches of `HistUtils.SetHistRanges` delegate to):
the window is `(FindFixBin lo, FindFixBin hi)`, with the first bin moved
up when its upper edge is `≤ lo` and the last bin moved down when its
lower edge is `≥ hi`. -/
def SetRangeUserWindow (a : Axis) (lo hi : ℚ) : ℕ × ℕ :=
  let ifirst := a.FindBin lo
  let ilast := a.FindBin hi
  (if a.edge ifirst ≤ lo then ifirst + 1 else ifirst,
   if a.GetBinLowEdge ilast ≥ hi then ilast - 1 else ilast)

/-- Default axis used only to make list indexing total. -/
def defaultAxis : Axis := ⟨0, fun _ => 0⟩

/-- The `THn` branch of `HistUtils.SetHistRanges`: for each dimension
with a configured (non-empty) cut, the selected bin window is
`(FindBin(cut[0]), FindBinWithUpperEdgeDetection(cut[1]))`; dimensions
with an empty cut are left unrestricted. -/
def SetHistRangesTHn (axes : List Axis) (ranges : List (List ℚ)) : List (Option (ℕ × ℕ)) :=
  ranges.enum.map fun dimCut =>
    if dimCut.2 = [] then none
    else
      some ((axes.getD dimCut.1 defaultAxis).FindBin (dimCut.2.getD 0 0),
        FindBinWithUpperEdgeDetection (axes.getD dimCut.1 defaultAxis) (dimCut.2.getD 1 0))

/-- Two-bin axis with edges `[0,1,2]`. -/
def ax01 : Axis := ⟨2, fun i => [(0 : ℚ), 1, 2].getD i 0⟩

/-- All-zero 1-bin histogram with edges `[0,1]`, a concrete input whose
normalization integral vanishes. -/
def zeroHist : Hist1 :=
  { n := 1, edge := fun i => [(0 : ℚ), 1].getD i 0, cont := fun _ => 0, w2 := fun _ => 0 }

/-!
## `CorrelationUtils.Recenter`

```python
def Recenter(cf, me, skipEmptyBins=False):
    rebin = int(me.GetNbinsX() / cf.GetNbinsX())
    Nbins = cf.GetNbinsX()
    ...
    for bin in range(1, Nbins + 1):
        value = 0; norm = 0; error = 0
        for bins in range(1 + (bin - 1) * rebin, bin * rebin + 1):
            value = value + me.GetBinCenter(bins) * me.GetBinContent(bins)
            norm = norm + me.GetBinContent(bins)
        if skipEmptyBins == True and norm == 0:
            continue
        if norm > 0:
            value = value / norm
        else:
            value = cf.GetBinCenter(bin)
        for bins in range(1 + (bin - 1) * rebin, bin * rebin + 1):
            error = error + me.GetBinContent(bins) * np.power(
                me.GetBinCenter(bins) - value, 2)
        BinCenterX.append(value)
        if norm > 0:
            BinErrorX.append(np.sqrt(error / norm))
        else:
            BinErrorX.append(cf.GetBinWidth(bin) / 2.0)
        BinCenterY.append(cf.GetBinContent(bin))
        BinErrorY.append(cf.GetBinError(bin))
    return rt.TGraphErrors(...)
```

The output `TGraphErrors` is modelled as a list of points.  The x/y
uncertainties are tracked by their squares (`ex2`, `ey2`): the source
appends `np.sqrt(error / norm)` and `cf.GetBinError(bin)`, i.e. the
square roots of the quantities stored here, which keeps the embedding
executable.
-/
/-- One point of a `TGraphErrors`: x/y position and *squared* x/y
uncertainties. -/
structure RPoint where
  x : ℚ
  ex2 : ℚ
  y : ℚ
  ey2 : ℚ
deriving DecidableEq

instance : Inhabited RPoint := ⟨⟨0, 0, 0, 0⟩⟩

/-- The fine-bin indices underlying merged bin `bin`:
`range(1 + (bin-1)*rebin, bin*rebin + 1)`. -/
def recenterIdxs (rebin bin : ℕ) : List ℕ :=
  (List.range rebin).map (fun j => (bin - 1) * rebin + 1 + j)

/-- `norm` of the `Recenter` loop: total fine ME content under the
merged bin. -/
def recenterNorm (me : Hist1) (rebin bin : ℕ) : ℚ :=
  ((recenterIdxs rebin bin).map me.cont).sum

/-- `value` of the `Recenter` loop before division: sum of
`center · content` over the underlying fine bins. -/
def recenterValue (me : Hist1) (rebin bin : ℕ) : ℚ :=
  ((recenterIdxs rebin bin).map (fun j => me.GetBinCenter j * me.cont j)).sum

/-- Body of the `Recenter` loop for one (non-skipped) merged bin. -/
def recenterPoint (cf me : Hist1) (rebin bin : ℕ) : RPoint :=
  let value := recenterValue me rebin bin
  let norm := recenterNorm me rebin bin
  let xval := if 0 < norm then value / norm else cf.GetBinCenter bin
  let error :=
    ((recenterIdxs rebin bin).map (fun j => me.cont j * (me.GetBinCenter j - xval) ^ 2)).sum
  { x := xval
    ex2 := if 0 < norm then error / norm else (cf.GetBinWidth bin / 2) ^ 2
    y := cf.cont bin
    ey2 := cf.w2 bin }

/-- `CorrelationUtils.Recenter`. -/
def Recenter (cf me : Hist1) (skipEmptyBins : Bool) : List RPoint :=
  let rebin := me.n / cf.n
  (List.range cf.n).filterMap fun b0 =>
    if skipEmptyBins = true ∧ recenterNorm me rebin (b0 + 1) = 0 then none
    else some (recenterPoint cf me rebin (b0 + 1))

/-- The 2-bin merged correlation function of the C2 scenario: edges
`[0,2,4]`, contents `[30,70]`. -/
def cfEx : Hist1 :=
  { n := 2
    edge := fun i => [(0 : ℚ), 2, 4].getD i 0
    cont := fun i => [(0 : ℚ), 30, 70].getD i 0
    w2 := fun i => [(0 : ℚ), 30, 70].getD i 0 }

/-- The fine 4-bin ME distribution of the C2 scenario: edges
`[0,1,2,3,4]`, contents `[10,20,30,40]`. -/
def meEx : Hist1 :=
  { n := 4
    edge := fun i => [(0 : ℚ), 1, 2, 3, 4].getD i 0
    cont := fun i => [(0 : ℚ), 10, 20, 30, 40].getD i 0
    w2 := fun i => [(0 : ℚ), 10, 20, 30, 40].getD i 0 }

/-!
## `CorrelationUtils.Reweight2d`

```python
def Reweight2d(se, me, name):
    MeRw = me.Clone(name)
    MeRw.Reset()
    for ybin in range(1, se.GetNbinsY()):
        SeBin = se.ProjectionX(f"se_bin_{ybin}", ybin, ybin)
        MeBin = me.ProjectionX(f"me_bin_{ybin}", ybin, ybin)
        SeInt = SeBin.Integral()
        MeInt = MeBin.Integral()
        if MeInt > 0.0 and SeInt > 0.0:
            MeBin.Scale(SeInt / MeInt)
            for xbin in range(1, MeBin.GetNbinsX() + 1):
                MeRw.SetBinContent(xbin, ybin, MeBin.GetBinContent(xbin))
                MeRw.SetBinError(xbin, ybin, MeBin.GetBinError(xbin))
    return MeRw
```

`MeRw` starts as a reset clone of `me` (same axes, every content and
error zero); each loop iteration overwrites one `ybin` column, and the
iterations touch disjoint columns, so the result is given pointwise: a
cell `(x, y)` holds the scaled ME value exactly when `1 ≤ x ≤ nx`,
`ybin = y` was visited by `range(1, se.GetNbinsY())` — i.e.
`1 ≤ y ≤ se.ny - 1`, the last y bin is never visited — and both slice
integrals are positive; every other cell stays 0.
-/
/-- A ROOT `TH2` (squared weights in `w2`; optional axis zoom windows
`xr`/`yr` as set by `SetRangeUser`, `none` meaning the full axis). -/
structure Hist2 where
  nx : ℕ
  ny : ℕ
  xedge : ℕ → ℚ
  yedge : ℕ → ℚ
  cont : ℕ → ℕ → ℚ
  w2 : ℕ → ℕ → ℚ
  xr : Option (ℕ × ℕ) := none
  yr : Option (ℕ × ℕ) := none

/-- `ProjectionX(name, y, y).Integral()`: total content of the 1-D slice
of a `TH2` at fixed y bin, summed over the in-range x bins `1 … nx`. -/
def sliceIntX (h : Hist2) (y : ℕ) : ℚ :=
  ((List.range h.nx).map (fun x0 => h.cont (x0 + 1) y)).sum

/-- `CorrelationUtils.Reweight2d`. -/
def Reweight2d (se me : Hist2) : Hist2 :=
  { me with
    cont := fun x y =>
      if 1 ≤ x ∧ x ≤ me.nx ∧ 1 ≤ y ∧ y + 1 ≤ se.ny ∧
          0 < sliceIntX me y ∧ 0 < sliceIntX se y then
        sliceIntX se y / sliceIntX me y * me.cont x y
      else 0
    w2 := fun x y =>
      if 1 ≤ x ∧ x ≤ me.nx ∧ 1 ≤ y ∧ y + 1 ≤ se.ny ∧
          0 < sliceIntX me y ∧ 0 < sliceIntX se y then
        (sliceIntX se y / sliceIntX me y) ^ 2 * me.w2 x y
      else 0 }

/-- 1×2 `TH2` (one correlation bin, two reweight bins) with every
in-range content equal to 1. -/
def rwEx : Hist2 :=
  { nx := 1, ny := 2, xedge := fun i => (i : ℚ), yedge := fun i => (i : ℚ),
    cont := fun _ _ => 1, w2 := fun _ _ => 1 }

/-!
## `AnalysisHandler._GenerateConfigurations` / `_GetConfigName`

```python
def _GenerateConfigurations(self):
    range_list = []
    if self._range_list:
        ranges = []
        for r in self._range_list:
            temp = []
            if len(r) <= 2:
                temp.append(tuple(r))
            else:
                for i in range(0, len(r) - 1):
                    temp.append((r[i], r[i + 1]))
            ranges.append(temp)
        range_list = list(itertools.product(*ranges))
    else:
        range_list = [[]]
    for rebin in self._rebin_list:
        for ranges in range_list:
            d = {"Name": self._GetConfigName(rebin, ranges), "Rebin": rebin,
                 "Ranges": ranges}
            self._config_list.append(d)

def _GetConfigName(self, rebin, ranges):
    if rebin == 1:
        ConfigName = "NoRebin"
    else:
        ConfigName = f"Rebin_{rebin}"
    if ranges is not None:
        for i, e in enumerate(ranges):
            if e:
                ConfigName = ConfigName + f"_Dim_{i}-{str(e[0])}-{str(e[1])}"
    return ConfigName
```

Edges are modelled as integers (the scenario supplies integer edges, and
Python's `str` of an `int` agrees with Lean's `toString` on `ℤ`).
-/
/-- Per-axis splitting of a supplied edge list: at most two entries are
taken as one range, more than two are split into consecutive pairs. -/
def splitRanges (range_list : List (List ℤ)) : List (List (List ℤ)) :=
  range_list.map fun r =>
    if r.length ≤ 2 then [r]
    else (List.range (r.length - 1)).map fun i => [r.getD i 0, r.getD (i + 1) 0]

/-- `itertools.product(*ranges)`: all combinations picking one entry per
axis. -/
def productAll : List (List (List ℤ)) → List (List (List ℤ))
  | [] => [[]]
  | xs :: rest => xs.flatMap fun x => (productAll rest).map (x :: ·)

/-- `AnalysisHandler._GetConfigName`. -/
def GetConfigName (rebin : ℤ) (ranges : List (List ℤ)) : String :=
  let base := if rebin = 1 then "NoRebin" else "Rebin_" ++ toString rebin
  ranges.enum.foldl
    (fun acc ie =>
      if ie.2 = [] then acc
      else acc ++ "_Dim_" ++ toString ie.1 ++ "-" ++ toString (ie.2.getD 0 0) ++ "-"
        ++ toString (ie.2.getD 1 0))
    base

/-- One entry of `AnalysisHandler._config_list`. -/
structure SweepConfig where
  name : String
  rebin : ℤ
  ranges : List (List ℤ)
deriving DecidableEq

/-- `AnalysisHandler._GenerateConfigurations`. -/
def GenerateConfigurations (range_list : List (List ℤ)) (rebin_list : List ℤ) :
    List SweepConfig :=
  let rangeCombos := if range_list = [] then [[]] else productAll (splitRanges range_list)
  rebin_list.flatMap fun rebin =>
    rangeCombos.map fun ranges =>
      { name := GetConfigName rebin ranges, rebin := rebin, ranges := ranges }

/-!
## `CorrelationHandler.__init__` — argument sanitisation

The constructor's parsing of its arguments (lines 110–226 of
`CorrelationHandler.py`), in source order:

1. null/type checks on SE/ME (modelled away: the embedding receives the
   common dimension of an already well-formed pair);
2. `if self.__dim - 1 < axis_kstar: raise ValueError(...)` — only this
   upper bound is checked for the kstar axis index;
3. `axis_kstar` is forced to 0 for 1-D input, otherwise taken as given;
4. a `normalization_range` of length 2 is validated (`lo > hi` raises)
   and activates normalization; any other length silently deactivates it;
5. `axis_reweight >= 0` activates reweighting after checking
   `dim > 1`, `dim - 1 >= axis_reweight` and
   `axis_kstar != axis_reweight`;
6. `rebin_kstar > 1` activates rebinning; any other value (including 0
   and negative values) is silently ignored, leaving the internal factor
   at 1 and `do_rebin` false — no error is raised;
7. `rescale_kstar > 0` activates rescaling;
8. a non-empty `ranges` list is validated (length must equal the
   dimension, each non-empty entry must have `lo <= hi`).
-/
/-- The configuration state a successfully constructed
`CorrelationHandler` holds (the `self.__*` scalars set by `__init__`). -/
structure HConfig where
  dim : ℕ
  axisKstar : ℤ
  normRange : List ℚ
  rebinKstar : ℤ
  rescaleKstar : ℚ
  axisReweight : ℤ
  ranges : List (List ℚ)
  doNormalization : Bool
  doRebin : Bool
  doRescale : Bool
  doReweight : Bool
  doRanges : Bool
deriving DecidableEq

/-- `CorrelationHandler.__init__` argument sanitisation: either the
first `ValueError` raised, or the resulting configuration. -/
def CorrelationHandlerInit (dim : ℕ) (normalization_range : List ℚ) (rebin_kstar : ℤ)
    (rescale_kstar : ℚ) (axis_kstar : ℤ) (axis_reweight : ℤ) (ranges : List (List ℚ)) :
    Except String HConfig :=
  if (dim : ℤ) - 1 < axis_kstar then
    .error "Index of kstar axis is larger or equal the histogram dimension"
  else
    let axisK : ℤ := if dim = 1 then 0 else axis_kstar
    if normalization_range.length = 2 ∧
        normalization_range.getD 1 0 < normalization_range.getD 0 0 then
      .error "Lower edge of NormRange is larger than the upper edge"
    else if 0 ≤ axis_reweight ∧ dim ≤ 1 then
      .error "1D Histogram provided, but reweighting is activated"
    else if 0 ≤ axis_reweight ∧ (dim : ℤ) - 1 < axis_reweight then
      .error "Index of reweight axis is larger or equal to the histograms dimension"
    else if 0 ≤ axis_reweight ∧ axis_kstar = axis_reweight then
      .error "Index of kstar axis and reweight axis are the same"
    else if ranges ≠ [] ∧ ranges.length ≠ dim then
      .error "Number of ranges and number of dimension do not match"
    else if ranges ≠ [] ∧ ∃ b ∈ ranges, b ≠ [] ∧ b.getD 1 0 < b.getD 0 0 then
      .error "Lower edge of range is larger than the upper edge"
    else
      .ok { dim := dim
            axisKstar := axisK
            normRange := if normalization_range.length = 2 then normalization_range else []
            rebinKstar := if 1 < rebin_kstar then rebin_kstar else 1
            rescaleKstar := if 0 < rescale_kstar then rescale_kstar else 0
            axisReweight := if 0 ≤ axis_reweight then axis_reweight else -1
            ranges := ranges
            doNormalization := decide (normalization_range.length = 2)
            doRebin := decide (1 < rebin_kstar)
            doRescale := decide (0 < rescale_kstar)
            doReweight := decide (0 ≤ axis_reweight)
            doRanges := decide (ranges ≠ []) }

/-!
## Remaining per-histogram operations used by the `FinalTouch` pipeline

These model, for the 2-D (`TH2`) code path of `CorrelationHandler`, the
operations the pipeline steps delegate to.  Operations marked "modelled
from ROOT" are external-library calls (`TH1::Divide`, `TH2::RebinX/Y`,
`TAxis::SetRangeUser`, `TH2::ProjectionX/Y`); the repository's own
functions (`Proj2dTo1d`, `Proj2dTo2d`, `SetHistRanges`, `RescaleHist`,
`RescaleGraph`) are embedded from their sources.
-/
instance : Inhabited Hist1 := ⟨⟨0, fun _ => 0, fun _ => 0, fun _ => 0⟩⟩

instance : Inhabited Hist2 := ⟨⟨0, 0, fun _ => 0, fun _ => 0, fun _ _ => 0, fun _ _ => 0, none, none⟩⟩

/-- Modelled from ROOT `TH1::Divide` with `Sumw2` active, called in
place on the clone of SE: `cf[i] = se[i]/me[i]` with the standard
ratio variance propagation; bins with zero denominator are set to 0
content and 0 error. -/
def Divide1 (a b : Hist1) : Hist1 :=
  { a with
    cont := fun i => if b.cont i = 0 then 0 else a.cont i / b.cont i
    w2 := fun i =>
      if b.cont i = 0 then 0
      else (a.w2 i * b.cont i ^ 2 + b.w2 i * a.cont i ^ 2) / b.cont i ^ 4 }

/-- Modelled from ROOT `TH2::RebinX(k)` (in place): groups of `k`
consecutive x bins are merged by summing contents and squared weights;
with a non-dividing factor the trailing remainder bins fall outside the
`nx/k` merged bins kept here. -/
def RebinX2 (h : Hist2) (k : ℕ) : Hist2 :=
  { h with
    nx := h.nx / k
    xedge := fun i => h.xedge (i * k)
    cont := fun x y => ((List.range k).map (fun j => h.cont ((x - 1) * k + 1 + j) y)).sum
    w2 := fun x y => ((List.range k).map (fun j => h.w2 ((x - 1) * k + 1 + j) y)).sum }

/-- Modelled from ROOT `TH2::RebinY(k)` (in place), symmetric to
`RebinX2`. -/
def RebinY2 (h : Hist2) (k : ℕ) : Hist2 :=
  { h with
    ny := h.ny / k
    yedge := fun i => h.yedge (i * k)
    cont := fun x y => ((List.range k).map (fun j => h.cont x ((y - 1) * k + 1 + j))).sum
    w2 := fun x y => ((List.range k).map (fun j => h.w2 x ((y - 1) * k + 1 + j))).sum }

/-- The x axis of a `TH2`. -/
def Hist2.xaxis (h : Hist2) : Axis := ⟨h.nx, h.xedge⟩

/-- The y axis of a `TH2`. -/
def Hist2.yaxis (h : Hist2) : Axis := ⟨h.ny, h.yedge⟩

/-- Modelled from ROOT `TAxis::SetRangeUser` on the x axis: records the
zoom window computed by `SetRangeUserWindow`. -/
def SetRangeUserX (h : Hist2) (lo hi : ℚ) : Hist2 :=
  { h with xr := some (SetRangeUserWindow h.xaxis lo hi) }

/-- Modelled from ROOT `TAxis::SetRangeUser` on the y axis. -/
def SetRangeUserY (h : Hist2) (lo hi : ℚ) : Hist2 :=
  { h with yr := some (SetRangeUserWindow h.yaxis lo hi) }

/-- `HistUtils.SetHistRanges`, dimension-2 branch: `SetRangeUser` on the
x axis if `ranges[0]` is non-empty, then on the y axis if `ranges[1]`
is. -/
def SetHistRanges2 (h : Hist2) (ranges : List (List ℚ)) : Hist2 :=
  let hx := if ranges.getD 0 [] ≠ [] then
      SetRangeUserX h ((ranges.getD 0 []).getD 0 0) ((ranges.getD 0 []).getD 1 0)
    else h
  if ranges.getD 1 [] ≠ [] then
    SetRangeUserY hx ((ranges.getD 1 []).getD 0 0) ((ranges.getD 1 []).getD 1 0)
  else hx

/-- The y bins a full-range `ProjectionX` sums over: the y zoom window
when one is set, otherwise all in-range bins (modelled from ROOT). -/
def ybins (h : Hist2) : List ℕ :=
  match h.yr with
  | some w => Hist1.binRange w.1 w.2
  | none => Hist1.binRange 1 h.ny

/-- The x bins a full-range `ProjectionY` sums over. -/
def xbins (h : Hist2) : List ℕ :=
  match h.xr with
  | some w => Hist1.binRange w.1 w.2
  | none => Hist1.binRange 1 h.nx

/-- `CorrelationUtils.Proj2dTo1d`: `ProjectionX` for axis 0,
`ProjectionY` for axis 1 (with error computation, i.e. summed squared
weights); for any other axis index the Python function returns `None`,
modelled by the default empty histogram. -/
def Proj2dTo1d (h : Hist2) (axis : ℕ) : Hist1 :=
  if axis = 0 then
    { n := h.nx, edge := h.xedge
      cont := fun x => ((ybins h).map (fun y => h.cont x y)).sum
      w2 := fun x => ((ybins h).map (fun y => h.w2 x y)).sum }
  else if axis = 1 then
    { n := h.ny, edge := h.yedge
      cont := fun y => ((xbins h).map (fun x => h.cont x y)).sum
      w2 := fun y => ((xbins h).map (fun x => h.w2 x y)).sum }
  else default

/-- `CorrelationUtils.Proj2dTo2d`: for `(axis_x, axis_y) = (0, 1)` a
clone of the input; otherwise a fresh uniform-axis `TH2D` with x/y
swapped, filled by `SetBinContent(j, i, GetBinContent(i, j))` for
`i in range(nx)`, `j in range(ny)` — the Python loops run from 0, so
cell `(j, i)` is written exactly for `j < ny`, `i < nx`, and errors are
not copied (the fresh histogram's squared weights stay 0). -/
def Proj2dTo2d (h : Hist2) (ax ay : ℕ) : Hist2 :=
  if ax = 0 ∧ ay = 1 then h
  else
    { nx := h.ny, ny := h.nx
      xedge := fun i => h.yedge 0 + i * ((h.yedge h.ny - h.yedge 0) / h.ny)
      yedge := fun i => h.xedge 0 + i * ((h.xedge h.nx - h.xedge 0) / h.nx)
      cont := fun a b => if a < h.ny ∧ b < h.nx then h.cont b a else 0
      w2 := fun _ _ => 0 }

/-- `HistUtils.RescaleHist`, 1-D branch: a fresh histogram whose uniform
axis runs from `xmin·scale` to `xmax·scale`, with contents and errors of
the in-range bins copied over. -/
def RescaleHist1 (h : Hist1) (c : ℚ) : Hist1 :=
  { n := h.n
    edge := fun i => h.edge 0 * c + i * ((h.edge h.n * c - h.edge 0 * c) / h.n)
    cont := fun i => if 1 ≤ i ∧ i ≤ h.n then h.cont i else 0
    w2 := fun i => if 1 ≤ i ∧ i ≤ h.n then h.w2 i else 0 }

/-- `HistUtils.RescaleHist`, 2-D branch with `axis = 0` (the only call
the pipeline makes): fresh `TH2F` with the x axis scaled, contents and
errors of in-range bins copied. -/
def RescaleHist2 (h : Hist2) (c : ℚ) : Hist2 :=
  { nx := h.nx, ny := h.ny
    xedge := fun i => h.xedge 0 * c + i * ((h.xedge h.nx * c - h.xedge 0 * c) / h.nx)
    yedge := fun i => h.yedge 0 + i * ((h.yedge h.ny - h.yedge 0) / h.ny)
    cont := fun x y => if 1 ≤ x ∧ x ≤ h.nx ∧ 1 ≤ y ∧ y ≤ h.ny then h.cont x y else 0
    w2 := fun x y => if 1 ≤ x ∧ x ≤ h.nx ∧ 1 ≤ y ∧ y ≤ h.ny then h.w2 x y else 0 }

/-- `CorrelationUtils.RescaleGraph`: x positions and x errors scaled
(squared x errors by `c²`), y untouched. -/
def RescaleGraph (g : List RPoint) (c : ℚ) : List RPoint :=
  g.map fun p => { x := p.x * c, ex2 := p.ex2 * c ^ 2, y := p.y, ey2 := p.ey2 }

/-!
## The object store

Python objects live on a heap and are passed by reference;
`CorrelationHandler` mutates histograms in place (`Rebin`, `Divide`,
`Scale` through `Normalize`) and allocates new ones (`Clone`,
projections, `RescaleHist`).  The heap is modelled as a store of cells
indexed by `ℕ` with an allocation counter: `alloc` returns a fresh
reference, `write` mutates an existing cell.  References the handler
holds are `Option ℕ` (the `self.__*` attributes start out as `None`).
-/
/-- A heap cell: a 1-D histogram, a 2-D histogram, a point graph, or
free. -/
inductive Obj where
  | h1 (h : Hist1)
  | h2 (h : Hist2)
  | graph (g : List RPoint)
  | empty

instance : Inhabited Obj := ⟨.empty⟩

/-- The heap: cell contents plus the next fresh reference. -/
structure Store where
  cells : ℕ → Obj
  next : ℕ

namespace Store

/-- Allocate a fresh cell holding `o`; returns the new store and the
fresh reference. -/
def alloc (s : Store) (o : Obj) : Store × ℕ :=
  ({ cells := fun r => if r = s.next then o else s.cells r, next := s.next + 1 }, s.next)

/-- Overwrite the cell a reference points to (no-op on `none`). -/
def write (s : Store) (ref : Option ℕ) (o : Obj) : Store :=
  match ref with
  | some r => { s with cells := fun q => if q = r then o else s.cells q }
  | none => s

/-- Read a reference as a 1-D histogram. -/
def rd1 (s : Store) (ref : Option ℕ) : Hist1 :=
  match ref with
  | some r => match s.cells r with | .h1 h => h | _ => default
  | none => default

/-- Read a reference as a 2-D histogram. -/
def rd2 (s : Store) (ref : Option ℕ) : Hist2 :=
  match ref with
  | some r => match s.cells r with | .h2 h => h | _ => default
  | none => default

/-- Read a reference as a graph. -/
def rdg (s : Store) (ref : Option ℕ) : List RPoint :=
  match ref with
  | some r => match s.cells r with | .graph g => g | _ => ([] : List RPoint)
  | none => ([] : List RPoint)

end Store

/-!
## The `CorrelationHandler` pipeline over the store (2-D `TH2` path)

The handler state mirrors the `self.__*` attributes: references into
the store for every owned histogram/graph (initially `None`) plus the
sanitised configuration.  The nested no-rebin handler spawned by
`DoNoRebin` is consumed only through `GetMe1D`/`GetMe1DRw`, so the
parent state records those two references (`nMe1d`, `nMe1dRw`) after
running the nested pipeline to completion.
-/
/-- The mutable state of one `CorrelationHandler` (2-D input). -/
structure HState where
  se : Option ℕ := none
  me : Option ℕ := none
  seIR : Option ℕ := none
  meIR : Option ℕ := none
  se2d : Option ℕ := none
  me2d : Option ℕ := none
  me2dRw : Option ℕ := none
  se1d : Option ℕ := none
  se1dN : Option ℕ := none
  me1d : Option ℕ := none
  me1dN : Option ℕ := none
  me1dRw : Option ℕ := none
  me1dRwN : Option ℕ := none
  cf : Option ℕ := none
  cfRw : Option ℕ := none
  cfRec : Option ℕ := none
  cfRwRec : Option ℕ := none
  nMe1d : Option ℕ := none
  nMe1dRw : Option ℕ := none
  cfg : HConfig

/-- The clone-and-own part of `CorrelationHandler.__init__` (lines
127–129): `self.__se = se.Clone(...)`, `self.__me = me.Clone(...)` —
two fresh cells holding copies of the caller's histograms; every other
attribute starts as `None`.  (Argument sanitisation is
`CorrelationHandlerInit`; here the already-validated configuration is
taken as given.) -/
def HandlerCtor (s : Store) (seRef meRef : ℕ) (cfg : HConfig) : HState × Store :=
  let (s, a) := s.alloc (s.cells seRef)
  let (s, b) := s.alloc (s.cells meRef)
  ({ se := some a, me := some b, cfg := cfg }, s)

/-- `CorrelationHandler.DoRebin`, 2-D `TH2` branch: `RebinX`/`RebinY`
in place on the handler's own SE/ME clones, depending on which axis is
the kstar axis. -/
def doRebinStep (σ : HState) (s : Store) : HState × Store :=
  if σ.cfg.axisKstar = 0 then
    let s := s.write σ.se (.h2 (RebinX2 (s.rd2 σ.se) σ.cfg.rebinKstar.toNat))
    let s := s.write σ.me (.h2 (RebinX2 (s.rd2 σ.me) σ.cfg.rebinKstar.toNat))
    (σ, s)
  else
    let s := s.write σ.se (.h2 (RebinY2 (s.rd2 σ.se) σ.cfg.rebinKstar.toNat))
    let s := s.write σ.me (.h2 (RebinY2 (s.rd2 σ.me) σ.cfg.rebinKstar.toNat))
    (σ, s)

/-- `CorrelationHandler.DoRanges`: clone SE/ME into `*_inRange` and
apply `SetHistRanges` in place to the clones. -/
def doRangesStep (σ : HState) (s : Store) : HState × Store :=
  let (s, a) := s.alloc (.h2 (s.rd2 σ.se))
  let (s, b) := s.alloc (.h2 (s.rd2 σ.me))
  let σ := { σ with seIR := some a, meIR := some b }
  let s := s.write σ.seIR (.h2 (SetHistRanges2 (s.rd2 σ.seIR) σ.cfg.ranges))
  let s := s.write σ.meIR (.h2 (SetHistRanges2 (s.rd2 σ.meIR) σ.cfg.ranges))
  (σ, s)

/-- `CorrelationHandler.DoProjections`, 2-D branch: project the
(in-range, if configured) SE/ME onto the kstar axis into fresh 1-D
histograms. -/
def doProjectionsStep (σ : HState) (s : Store) : HState × Store :=
  let srcSe := if σ.cfg.doRanges then σ.seIR else σ.se
  let srcMe := if σ.cfg.doRanges then σ.meIR else σ.me
  let (s, a) := s.alloc (.h1 (Proj2dTo1d (s.rd2 srcSe) σ.cfg.axisKstar.toNat))
  let (s, b) := s.alloc (.h1 (Proj2dTo1d (s.rd2 srcMe) σ.cfg.axisKstar.toNat))
  ({ σ with se1d := some a, me1d := some b }, s)

/-- `CorrelationHandler.DoProjectionsWithRw`, 2-D branch: project SE/ME
onto (kstar × reweight) 2-D histograms, reweight the ME one, and
project the reweighted ME onto the kstar (x) axis. -/
def doProjectionsWithRwStep (σ : HState) (s : Store) : HState × Store :=
  let srcSe := if σ.cfg.doRanges then σ.seIR else σ.se
  let srcMe := if σ.cfg.doRanges then σ.meIR else σ.me
  let (s, a) := s.alloc
    (.h2 (Proj2dTo2d (s.rd2 srcSe) σ.cfg.axisKstar.toNat σ.cfg.axisReweight.toNat))
  let (s, b) := s.alloc
    (.h2 (Proj2dTo2d (s.rd2 srcMe) σ.cfg.axisKstar.toNat σ.cfg.axisReweight.toNat))
  let σ := { σ with se2d := some a, me2d := some b }
  let (s, c) := s.alloc (.h2 (Reweight2d (s.rd2 σ.se2d) (s.rd2 σ.me2d)))
  let σ := { σ with me2dRw := some c }
  let (s, d) := s.alloc (.h1 (Proj2dTo1d (s.rd2 σ.me2dRw) 0))
  ({ σ with me1dRw := some d }, s)

/-- Sequencing of two pipeline steps (the statement-by-statement
threading of the handler's mutable state and the heap). -/
def stepSeq (f g : HState → Store → HState × Store) (σ : HState) (s : Store) :
    HState × Store :=
  let (σ, s) := f σ s
  g σ s

/-- A pipeline fragment guarded by a configuration flag
(`if self.__do_*:`). -/
def stepIf (c : HConfig → Bool) (f : HState → Store → HState × Store)
    (σ : HState) (s : Store) : HState × Store :=
  if c σ.cfg then f σ s else (σ, s)

/-- `CorrelationHandler.DoCorrelations`, unconditional part:
`cf = se_1d.Clone()` then `cf.Divide(me_1d)` in place.  (`Sumw2` is
modelled as always active: the embedding always carries squared
weights.) -/
def doCorrelationsBase (σ : HState) (s : Store) : HState × Store :=
  let (s, a) := s.alloc (.h1 (s.rd1 σ.se1d))
  let σ := { σ with cf := some a }
  let s := s.write σ.cf (.h1 (Divide1 (s.rd1 σ.cf) (s.rd1 σ.me1d)))
  (σ, s)

/-- `CorrelationHandler.DoCorrelations`, `if self.__do_reweight:` part:
same clone-and-divide against the reweighted ME. -/
def doCorrelationsRw (σ : HState) (s : Store) : HState × Store :=
  let (s, b) := s.alloc (.h1 (s.rd1 σ.se1d))
  let σ := { σ with cfRw := some b }
  let s := s.write σ.cfRw (.h1 (Divide1 (s.rd1 σ.cfRw) (s.rd1 σ.me1dRw)))
  (σ, s)

/-- `CorrelationHandler.DoCorrelations`. -/
def doCorrelationsStep : HState → Store → HState × Store :=
  stepSeq doCorrelationsBase (stepIf (·.doReweight) doCorrelationsRw)

/-- `CorrelationUtils.Normalize` at the store level: the Python function
mutates the histogram object passed to it in place and returns that very
object, so here the referenced cell is overwritten and the same
reference is handed back. -/
def NormalizeRef (s : Store) (ref : Option ℕ) (lo hi : ℚ) : Store × Option ℕ :=
  (s.write ref (.h1 (Normalize (s.rd1 ref) lo hi)), ref)

/-- `CorrelationHandler.DoNormalizations`, unconditional part: SE/ME
1-D projections are cloned before normalization
(`self.__se_1d.Clone(...)` is what gets scaled), but the correlation
function is passed to `Normalize` directly — it is normalized in
place. -/
def doNormalizationsBase (σ : HState) (s : Store) : HState × Store :=
  let lo := σ.cfg.normRange.getD 0 0
  let hi := σ.cfg.normRange.getD 1 0
  let (s, a) := s.alloc (.h1 (s.rd1 σ.se1d))
  let (s, aN) := NormalizeRef s (some a) lo hi
  let σ := { σ with se1dN := aN }
  let (s, b) := s.alloc (.h1 (s.rd1 σ.me1d))
  let (s, bN) := NormalizeRef s (some b) lo hi
  let σ := { σ with me1dN := bN }
  let (s, cN) := NormalizeRef s σ.cf lo hi
  ({ σ with cf := cN }, s)

/-- `CorrelationHandler.DoNormalizations`, `if self.__do_reweight:`
part: the reweighted ME projection is cloned before normalization, the
reweighted correlation function is normalized in place. -/
def doNormalizationsRw (σ : HState) (s : Store) : HState × Store :=
  let lo := σ.cfg.normRange.getD 0 0
  let hi := σ.cfg.normRange.getD 1 0
  let (s, c) := s.alloc (.h1 (s.rd1 σ.me1dRw))
  let (s, cN2) := NormalizeRef s (some c) lo hi
  let σ := { σ with me1dRwN := cN2 }
  let (s, dN) := NormalizeRef s σ.cfRw lo hi
  ({ σ with cfRw := dN }, s)

/-- `CorrelationHandler.DoNormalizations`. -/
def doNormalizationsStep : HState → Store → HState × Store :=
  stepSeq doNormalizationsBase (stepIf (·.doReweight) doNormalizationsRw)

/-- `CorrelationHandler.DoRecenter`, unconditional part: build the
recentered correlation graph from the rebinned correlation function and
the nested no-rebin handler's fine ME projection
(`skipEmptyBins = True`). -/
def doRecenterBase (σ : HState) (s : Store) : HState × Store :=
  let (s, a) := s.alloc (.graph (Recenter (s.rd1 σ.cf) (s.rd1 σ.nMe1d) true))
  ({ σ with cfRec := some a }, s)

/-- `CorrelationHandler.DoRecenter`, `if self.__do_reweight:` part. -/
def doRecenterRw (σ : HState) (s : Store) : HState × Store :=
  let (s, b) := s.alloc (.graph (Recenter (s.rd1 σ.cfRw) (s.rd1 σ.nMe1dRw) true))
  ({ σ with cfRwRec := some b }, s)

/-- `CorrelationHandler.DoRecenter`. -/
def doRecenterStep : HState → Store → HState × Store :=
  stepSeq doRecenterBase (stepIf (·.doReweight) doRecenterRw)

/-- `CorrelationHandler.DoRescale`, unconditional part: every rescaled
histogram is a fresh object (`RescaleHist` allocates) that the handler
re-binds its attribute to, in source order (`se_1d`, `se_1d_normalized`,
`me_1d`, `me_1d_normalized`, `cf`). -/
def doRescaleBase (σ : HState) (s : Store) : HState × Store :=
  let c := σ.cfg.rescaleKstar
  let (s, a1) := s.alloc (.h1 (RescaleHist1 (s.rd1 σ.se1d) c))
  let σ := { σ with se1d := some a1 }
  let (s, a2) := s.alloc (.h1 (RescaleHist1 (s.rd1 σ.se1dN) c))
  let σ := { σ with se1dN := some a2 }
  let (s, a3) := s.alloc (.h1 (RescaleHist1 (s.rd1 σ.me1d) c))
  let σ := { σ with me1d := some a3 }
  let (s, a4) := s.alloc (.h1 (RescaleHist1 (s.rd1 σ.me1dN) c))
  let σ := { σ with me1dN := some a4 }
  let (s, a5) := s.alloc (.h1 (RescaleHist1 (s.rd1 σ.cf) c))
  ({ σ with cf := some a5 }, s)

/-- `CorrelationHandler.DoRescale`, `if self.__do_reweight:` part: the
2-D projections, the reweighted ME projection and the reweighted
correlation function. -/
def doRescaleRw (σ : HState) (s : Store) : HState × Store :=
  let c := σ.cfg.rescaleKstar
  let (s, b1) := s.alloc (.h2 (RescaleHist2 (s.rd2 σ.se2d) c))
  let σ := { σ with se2d := some b1 }
  let (s, b2) := s.alloc (.h2 (RescaleHist2 (s.rd2 σ.me2d) c))
  let σ := { σ with me2d := some b2 }
  let (s, b3) := s.alloc (.h1 (RescaleHist1 (s.rd1 σ.me1dRw) c))
  let σ := { σ with me1dRw := some b3 }
  let (s, b4) := s.alloc (.h1 (RescaleHist1 (s.rd1 σ.cfRw) c))
  ({ σ with cfRw := some b4 }, s)

/-- `CorrelationHandler.DoRescale`, `if self.__do_rebin:` part: the
recentered graph (`RescaleGraph` allocates). -/
def doRescaleRecen (σ : HState) (s : Store) : HState × Store :=
  let (s, d1) := s.alloc (.graph (RescaleGraph (s.rdg σ.cfRec) σ.cfg.rescaleKstar))
  ({ σ with cfRec := some d1 }, s)

/-- `CorrelationHandler.DoRescale`, reweighted recentered graph. -/
def doRescaleRecenRw (σ : HState) (s : Store) : HState × Store :=
  let (s, d2) := s.alloc (.graph (RescaleGraph (s.rdg σ.cfRwRec) σ.cfg.rescaleKstar))
  ({ σ with cfRwRec := some d2 }, s)

/-- `CorrelationHandler.DoRescale`. -/
def doRescaleStep : HState → Store → HState × Store :=
  stepSeq doRescaleBase
    (stepSeq (stepIf (·.doReweight) doRescaleRw)
      (stepIf (·.doRebin)
        (stepSeq doRescaleRecen (stepIf (·.doReweight) doRescaleRecenRw))))

/-- `CorrelationHandler.DoNoRebin` followed by `DoRebin` (the body of
`FinalTouch`'s `if self.__do_rebin:` branch): construct a nested handler
from the handler's own clones with the rebin argument 0 — whose
sanitisation yields factor 1 and `do_rebin = False` — run its
`FinalTouch` (the `recurse` argument), keep the two references the
parent later consumes (`GetMe1D`/`GetMe1DRw`), then rebin the parent's
own SE/ME in place. -/
def noRebinSpawnStep (recurse : HState → Store → HState × Store)
    (σ : HState) (s : Store) : HState × Store :=
  let (σn, s) := HandlerCtor s (σ.se.getD 0) (σ.me.getD 0)
    { σ.cfg with rebinKstar := 1, doRebin := false }
  let (σn, s) := recurse σn s
  let σ := { σ with nMe1d := σn.me1d, nMe1dRw := σn.me1dRw }
  doRebinStep σ s

/-- `CorrelationHandler.FinalTouch`, with a fuel argument bounding the
`DoNoRebin` nesting (the nested handler has `do_rebin = False`, so the
recursion depth is exactly one and fuel 2 realises the Python call; the
fuel-0 base case is unreachable).  The step order is that of the
source: rebin (with the no-rebin spawn), ranges, 1-D projections, 2-D
projections + reweighting, correlation functions, normalizations,
recentering, rescaling.  `ManageHistograms` (`SetDirectory(0)`
ownership flags against ROOT's global directory registry) has no effect
on the modelled store. -/
def FinalTouchD : ℕ → HState → Store → HState × Store
  | 0, σ, s => (σ, s)
  | fuel + 1, σ, s =>
    stepSeq (stepIf (·.doRebin) (noRebinSpawnStep (FinalTouchD fuel)))
      (stepSeq (stepIf (·.doRanges) doRangesStep)
        (stepSeq doProjectionsStep
          (stepSeq (stepIf (·.doReweight) doProjectionsWithRwStep)
            (stepSeq doCorrelationsStep
              (stepSeq (stepIf (·.doNormalization) doNormalizationsStep)
                (stepSeq (stepIf (·.doRebin) doRecenterStep)
                  (stepIf (·.doRescale) doRescaleStep))))))) σ s

/-- `CorrelationHandler.FinalTouch` (fuel 2 covers the single level of
`DoNoRebin` nesting). -/
def FinalTouch (σ : HState) (s : Store) : HState × Store := FinalTouchD 2 σ s

/-- Every reference a handler state holds is at least `n` (i.e. the
handler owns only cells allocated at or after frontier `n`). -/
def optGE (n : ℕ) (o : Option ℕ) : Prop := ∀ r, o = some r → n ≤ r

/-- All 19 reference fields of a handler state respect frontier `n`. -/
def HStGE (n : ℕ) (σ : HState) : Prop :=
  optGE n σ.se ∧ optGE n σ.me ∧ optGE n σ.seIR ∧ optGE n σ.meIR ∧
  optGE n σ.se2d ∧ optGE n σ.me2d ∧ optGE n σ.me2dRw ∧
  optGE n σ.se1d ∧ optGE n σ.se1dN ∧ optGE n σ.me1d ∧ optGE n σ.me1dN ∧
  optGE n σ.me1dRw ∧ optGE n σ.me1dRwN ∧ optGE n σ.cf ∧ optGE n σ.cfRw ∧
  optGE n σ.cfRec ∧ optGE n σ.cfRwRec ∧ optGE n σ.nMe1d ∧ optGE n σ.nMe1dRw

/-- `s'` extends `s` without touching any cell below frontier `n`. -/
def Pres (n : ℕ) (s s' : Store) : Prop :=
  n ≤ s'.next ∧ ∀ r, r < n → s'.cells r = s.cells r

/-- A pipeline step respects the frontier: handler references stay at or
above it and no store cell below it changes. -/
def StepOK (f : HState → Store → HState × Store) : Prop :=
  ∀ n σ s, HStGE n σ → n ≤ s.next → HStGE n (f σ s).1 ∧ Pres n s (f σ s).2

/-- Concrete two-cell store holding a 2-D SE/ME pair at references 0
and 1. -/
def storeEx : Store :=
  { cells := fun r => if r = 0 then .h2 rwEx else if r = 1 then .h2 rwEx else .empty
    next := 2 }

/-- Fully featured configuration (rebin, ranges, reweight,
normalization, rescale all active) for the pipeline witness. -/
def cfgEx : HConfig :=
  { dim := 2, axisKstar := 0, normRange := [0, 1], rebinKstar := 2, rescaleKstar := 2
    axisReweight := 1, ranges := [[0, 1], []], doNormalization := true, doRebin := true
    doRescale := true, doReweight := true, doRanges := true }

/-- Concrete two-cell store holding 1-D histograms at references 0
and 1 for the C10 witness. -/
def store1Ex : Store :=
  { cells := fun r => if r = 0 then .h1 normCex else if r = 1 then .h1 zeroHist else .empty
    next := 2 }

/-- Configuration for the C10 witness: normalization on, everything
else off. -/
def cfg1Ex : HConfig :=
  { dim := 1, axisKstar := 0, normRange := [0, 1], rebinKstar := 1
    rescaleKstar := 0, axisReweight := -1, ranges := []
    doNormalization := true, doRebin := false, doRescale := false
    doReweight := false, doRanges := false }

/-- Handler state for the C10 witness: `se1d` at reference 1, `cf` at
reference 0, reweighting off. -/
def hstEx : HState :=
  { se1d := some 1, cf := some 0, cfg := cfg1Ex }

/-!
## Theorems
-/

/-- C4, counterexample.  With edges `[0,1,2]`, contents `[1,3]` and the
normalization range `(1/4, 3/2)` (endpoints inside bins, not on edges),
`Normalize` scales bin 1 from `1` to `1/2` — the snapped factor
`(2-0)/4`.  That is not `(hi-lo)/integral` for the integral the code
computes over the snapped bins (`(5/4)/4 = 5/16`), nor for the integral
truly restricted to `[lo,hi]`
(`(5/4)/(3/4·1 + 1/2·3) = 5/9`).  So the claimed factor `(hi-lo)/integral`
is wrong for ranges whose endpoints do not coincide with bin edges. -/
theorem normalize_hi_lo_factor_cex :
    (Normalize normCex (1/4) (3/2)).cont 1 ≠
      ((3/2 : ℚ) - 1/4) / NormIntegral normCex (1/4) (3/2) * normCex.cont 1 ∧
    (Normalize normCex (1/4) (3/2)).cont 1 ≠
      ((3/2 : ℚ) - 1/4) / (3/4 * normCex.cont 1 + 1/2 * normCex.cont 2) * normCex.cont 1 := by
  norm_num [Normalize, NormalizeRun, NormIntegral, NormUpperEdge, NormLowerEdge,
    Hist1.IntegralW, Hist1.binRange, Hist1.FindBin, Axis.FindBin, Hist1.GetBinLowEdge,
    Hist1.axis, Hist1.Scale, normCex, List.range_succ, List.range']

/-- C4, amended.  Whenever the integral that `Normalize` computes is
nonzero, every bin content is scaled uniformly by exactly
`(UpperEdge - LowerEdge) / integral`, where `LowerEdge` is the lower
edge of the bin containing `lo`, `UpperEdge` is the upper edge of the
bin containing `hi`, and the integral is the bin-width-weighted sum over
those whole bins; this coincides with `(hi-lo)/integral` only when the
endpoints are the snapped edges themselves. -/
theorem normalize_scales_by_snapped_edges (d : Hist1) (lo hi : ℚ)
    (h : NormIntegral d lo hi ≠ 0) (i : ℕ) :
    (Normalize d lo hi).cont i =
      (NormUpperEdge d hi - NormLowerEdge d lo) / NormIntegral d lo hi * d.cont i ∧
    (Normalize d lo hi).w2 i =
      ((NormUpperEdge d hi - NormLowerEdge d lo) / NormIntegral d lo hi) ^ 2 * d.w2 i := by
  simp [Normalize, NormalizeRun, Hist1.Scale, h]

/-- C4, witness for `normalize_scales_by_snapped_edges` at the concrete
input `normCex`, range `(1/4, 3/2)`, bin 1. -/
theorem normalize_scales_by_snapped_edges_witness :
    NormIntegral normCex (1/4) (3/2) ≠ 0 ∧
    ((Normalize normCex (1/4) (3/2)).cont 1 =
        (NormUpperEdge normCex (3/2) - NormLowerEdge normCex (1/4)) /
          NormIntegral normCex (1/4) (3/2) * normCex.cont 1 ∧
      (Normalize normCex (1/4) (3/2)).w2 1 =
        ((NormUpperEdge normCex (3/2) - NormLowerEdge normCex (1/4)) /
          NormIntegral normCex (1/4) (3/2)) ^ 2 * normCex.w2 1) := by
  have hI : NormIntegral normCex (1/4) (3/2) = 4 := by
    norm_num [NormIntegral, Hist1.IntegralW, Hist1.binRange, Hist1.FindBin, Axis.FindBin,
      Hist1.axis, normCex, List.range_succ, List.range']
  exact ⟨by rw [hI]; norm_num,
    normalize_scales_by_snapped_edges normCex (1/4) (3/2) (by rw [hI]; norm_num) 1⟩

/-- C7.  When the integral in the normalization range is zero, the
Python `Scale` call raises a `ZeroDivisionError` that the bare `except`
catches and reports: no exception propagates to the caller, every bin
content and squared error is left unchanged, and the very distribution
passed in is returned. -/
theorem normalize_zero_integral_reports_noop (d : Hist1) (lo hi : ℚ)
    (h : NormIntegral d lo hi = 0) :
    NormalizeRun d lo hi = (d, true) := by
  simp [NormalizeRun, h]

/-- Helper: the number of `j < n` with `j < m` is `min m n`. -/
theorem length_filter_range_lt (m n : ℕ) :
    ((List.range n).filter (fun j => decide (j < m))).length = min m n := by
  induction n with
  | zero => simp
  | succ n ih =>
    by_cases h : n < m <;>
      simp [List.range_succ, List.filter_append, h, ih] <;> omega

/-- Helper: on a strictly monotone axis, `FindBin` maps the lower edge
of an in-range bin `k ≥ 1` to `k` itself. -/
theorem findBin_lower_edge (a : Axis) (hm : a.Mono) (k : ℕ)
    (h1 : 1 ≤ k) (h2 : k ≤ a.n) : a.FindBin (a.edge (k - 1)) = k := by
  unfold Axis.FindBin
  have h0 : ¬ a.edge (k - 1) < a.edge 0 := by
    rcases Nat.eq_or_lt_of_le h1 with h | h
    · simp [← h]
    · exact not_lt.mpr (le_of_lt (hm 0 (k - 1) (by omega) (by omega)))
  rw [if_neg h0]
  have hc : ∀ j ∈ List.range a.n,
      decide (a.edge (j + 1) ≤ a.edge (k - 1)) = decide (j < k - 1) := by
    intro j hj
    have hjn : j < a.n := List.mem_range.mp hj
    apply decide_eq_decide.mpr
    constructor
    · intro hle
      by_contra hlt
      have : a.edge (k - 1) < a.edge (j + 1) := hm (k - 1) (j + 1) (by omega) (by omega)
      exact absurd hle (not_le.mpr this)
    · intro hlt
      rcases Nat.lt_or_ge (j + 1) (k - 1) with h | h
      · exact le_of_lt (hm (j + 1) (k - 1) h (by omega))
      · have : j + 1 = k - 1 := by omega
        rw [this]
  rw [List.filter_congr hc, length_filter_range_lt]
  omega

/-- C5, counterexample.  On the axis with edges `[0,1,2]`, a cut whose
upper boundary `0` lies exactly on the lower edge of bin 1 is *not*
biased to the preceding bin: the `FoundBin != 1` guard keeps it at
bin 1, so the bin starting at that boundary stays inside the restricted
window rather than being excluded. -/
theorem upper_edge_first_bin_not_biased_cex :
    FindBinWithUpperEdgeDetection ax01 0 = 1 ∧
    SetHistRangesTHn [ax01] [[0, 0]] = [some (1, 1)] := by
  have hfb : ax01.FindBin 0 = 1 := by
    norm_num [Axis.FindBin, ax01, List.range_succ]
  have hued : FindBinWithUpperEdgeDetection ax01 0 = 1 := by
    unfold FindBinWithUpperEdgeDetection
    rw [hfb]
    norm_num [Axis.GetBinLowEdge, ax01]
  exact ⟨hued, by simp [SetHistRangesTHn, List.enum, hfb, hued]⟩

/-- C5, amended.  On any strictly monotone axis, a selection boundary
lying exactly on the lower edge of bin `k` with `2 ≤ k ≤ n` — that is,
any bin's lower edge other than the first bin's — is biased to the
preceding bin `k-1`: by `FindBinWithUpperEdgeDetection` in the `THn`
branch of `SetHistRanges` (so the window's upper bin is `k-1` and bin
`k` is excluded), and likewise by the delegated `TAxis::SetRangeUser` in
the 1-D/2-D/3-D branches.  The exception forced by the counterexample:
a boundary on the *first* bin's lower edge stays at bin 1. -/
theorem upper_edge_on_lower_edge_biases_to_previous_bin (a : Axis) (hm : a.Mono)
    (k : ℕ) (hk2 : 2 ≤ k) (hkn : k ≤ a.n) (lo : ℚ) :
    FindBinWithUpperEdgeDetection a (a.edge (k - 1)) = k - 1 ∧
    SetHistRangesTHn [a] [[lo, a.edge (k - 1)]] = [some (a.FindBin lo, k - 1)] ∧
    (SetRangeUserWindow a lo (a.edge (k - 1))).2 = k - 1 := by
  have hfb : a.FindBin (a.edge (k - 1)) = k :=
    findBin_lower_edge a hm k (by omega) hkn
  have hued : FindBinWithUpperEdgeDetection a (a.edge (k - 1)) = k - 1 := by
    unfold FindBinWithUpperEdgeDetection
    rw [hfb]
    have hg : |a.edge (k - 1) - a.GetBinLowEdge k| < 1 / 10 ^ 7 ∧ k ≠ 1 := by
      constructor
      · simp [Axis.GetBinLowEdge]
      · omega
    rw [if_pos hg]
  refine ⟨hued, by simp [SetHistRangesTHn, List.enum, hued], ?_⟩
  unfold SetRangeUserWindow
  rw [hfb]
  simp [Axis.GetBinLowEdge]

/-- C5, witness for `upper_edge_on_lower_edge_biases_to_previous_bin`
on the axis `[0,1,2]` with `k = 2` (boundary `1` on bin 2's lower edge)
and lower cut `0`. -/
theorem upper_edge_biases_witness :
    ax01.Mono ∧
    (FindBinWithUpperEdgeDetection ax01 (ax01.edge 1) = 1 ∧
      SetHistRangesTHn [ax01] [[0, ax01.edge 1]] = [some (ax01.FindBin 0, 1)] ∧
      (SetRangeUserWindow ax01 0 (ax01.edge 1)).2 = 1) := by
  have hm : ax01.Mono := by
    intro i j hij hj
    have hj' : j ≤ 2 := hj
    interval_cases j <;> interval_cases i <;> norm_num [ax01]
  exact ⟨hm, upper_edge_on_lower_edge_biases_to_previous_bin ax01 hm 2 (by omega) (by norm_num [ax01]) 0⟩

/-- With `skipEmptyBins = False` no merged bin is dropped: the graph has
one point per correlation-function bin, in order. -/
theorem recenter_noskip_eq_map (cf me : Hist1) :
    Recenter cf me false =
      (List.range cf.n).map (fun b0 => recenterPoint cf me (me.n / cf.n) (b0 + 1)) := by
  have h : ∀ l : List ℕ,
      (List.filterMap (fun b0 =>
        if false = true ∧ recenterNorm me (me.n / cf.n) (b0 + 1) = 0 then none
        else some (recenterPoint cf me (me.n / cf.n) (b0 + 1))) l) =
      l.map (fun b0 => recenterPoint cf me (me.n / cf.n) (b0 + 1)) := by
    intro l
    induction l with
    | nil => simp
    | cons a l ih =>
      simp at ih
      simp [ih]
  exact h (List.range cf.n)

/-- C2.  For every merged bin whose underlying fine content sum is
positive, `Recenter` emits the point whose x-position is the
content-weighted mean `Σ(center_j · content_j) / Σ(content_j)` of the
underlying fine bin centers, whose squared x-error is the
content-weighted squared spread `Σ(content_j · (center_j - x̄)²) / Σ(content_j)`,
and whose y value/squared error are the correlation function's bin
content and squared bin error.  In particular, on the scenario with fine
ME contents `[10,20,30,40]` over edges `[0,1,2,3,4]` merged by factor 2,
the first recentered point lies at `x = 7/6 ≈ 1.1667` with squared
spread `2/9`, not at the geometric center `1`. -/
theorem recenter_content_weighted_mean :
    (∀ (cf me : Hist1) (b0 : ℕ), b0 < cf.n →
      0 < recenterNorm me (me.n / cf.n) (b0 + 1) →
      ∃ p, (Recenter cf me false)[b0]? = some p ∧
        p.x = recenterValue me (me.n / cf.n) (b0 + 1) /
          recenterNorm me (me.n / cf.n) (b0 + 1) ∧
        p.ex2 = ((recenterIdxs (me.n / cf.n) (b0 + 1)).map
            (fun j => me.cont j * (me.GetBinCenter j - p.x) ^ 2)).sum /
          recenterNorm me (me.n / cf.n) (b0 + 1) ∧
        p.y = cf.cont (b0 + 1) ∧ p.ey2 = cf.w2 (b0 + 1)) ∧
    ((Recenter cfEx meEx false).headI.x = 7/6 ∧
      (Recenter cfEx meEx false).headI.ex2 = 2/9 ∧ ((7 : ℚ)/6 ≠ 1)) := by
  constructor
  · intro cf me b0 hb hn
    refine ⟨recenterPoint cf me (me.n / cf.n) (b0 + 1), ?_, ?_, ?_, rfl, rfl⟩
    · simp [recenter_noskip_eq_map, hb]
    · simp [recenterPoint, hn]
    · simp [recenterPoint, hn]
  · norm_num [recenter_noskip_eq_map, recenterPoint, recenterValue, recenterNorm,
      recenterIdxs, cfEx, meEx, Hist1.GetBinCenter, List.range_succ, List.headI]

/-- C1, failing-input evaluation.  On the 1×2 SE = ME pair with all
contents 1, both slice integrals at the last reweight bin `w = 2` are
positive (equal to 1), yet the reweighted ME column at `w = 2` sums to
0, not to the SE slice integral: the loop `range(1, se.GetNbinsY())`
never visits the last y bin.  The first column behaves as specified
(its sum equals the SE slice integral). -/
theorem reweight2d_last_column_dropped :
    0 < sliceIntX rwEx 2 ∧ sliceIntX rwEx 2 = 1 ∧
    sliceIntX (Reweight2d rwEx rwEx) 2 = 0 ∧
    sliceIntX (Reweight2d rwEx rwEx) 2 ≠ sliceIntX rwEx 2 ∧
    sliceIntX (Reweight2d rwEx rwEx) 1 = sliceIntX rwEx 1 := by
  norm_num [sliceIntX, Reweight2d, rwEx, List.range_succ]

/-- C6.  Expanding a sweep with one axis whose edge list is `[0,1,2,3]`
(split into the consecutive pairs `(0,1)`, `(1,2)`, `(2,3)`) against the
rebin factors `[1,2]` yields exactly 6 configurations whose generated
identifiers are pairwise distinct. -/
theorem sweep_expansion_six_unique_configs :
    (GenerateConfigurations [[0, 1, 2, 3]] [1, 2]).length = 6 ∧
    ((GenerateConfigurations [[0, 1, 2, 3]] [1, 2]).map SweepConfig.name).Nodup := by
  constructor
  · rfl
  · decide

/-- C3, counterexample.  Constructing a handler for a 1-D pair with the
non-positive rebin factor 0 raises nothing at all: the constructor
returns a fully built configuration with rebinning simply deactivated
(`rebin_kstar > 1` is the only test, there is no error branch). -/
theorem nonpositive_rebin_accepted_cex :
    CorrelationHandlerInit 1 [] 0 (-1) 0 (-1) [] =
      .ok { dim := 1, axisKstar := 0, normRange := [], rebinKstar := 1, rescaleKstar := 0,
            axisReweight := -1, ranges := [], doNormalization := false, doRebin := false,
            doRescale := false, doReweight := false, doRanges := false } := by
  norm_num [CorrelationHandlerInit]

/-- C3, amended.  A non-positive rebin factor does not raise a
configuration error at construction time; it is accepted and silently
deactivates rebinning: the internal factor stays 1 and `do_rebin` stays
false. -/
theorem nonpositive_rebin_silently_deactivates (rb : ℤ) (h : rb ≤ 0) :
    CorrelationHandlerInit 1 [] rb (-1) 0 (-1) [] =
      .ok { dim := 1, axisKstar := 0, normRange := [], rebinKstar := 1, rescaleKstar := 0,
            axisReweight := -1, ranges := [], doNormalization := false, doRebin := false,
            doRescale := false, doReweight := false, doRanges := false } := by
  norm_num [CorrelationHandlerInit, show ¬(1 < rb) by omega]

/-- C3, witness for `nonpositive_rebin_silently_deactivates` at the
concrete rebin factor `-3`. -/
theorem nonpositive_rebin_silently_deactivates_witness :
    (-3 : ℤ) ≤ 0 ∧
    CorrelationHandlerInit 1 [] (-3) (-1) 0 (-1) [] =
      .ok { dim := 1, axisKstar := 0, normRange := [], rebinKstar := 1, rescaleKstar := 0,
            axisReweight := -1, ranges := [], doNormalization := false, doRebin := false,
            doRescale := false, doReweight := false, doRanges := false } :=
  ⟨by omega, nonpositive_rebin_silently_deactivates (-3) (by omega)⟩

/-- C9.  For 1-D input the constructor checks only the upper bound
`dim - 1 < axis_kstar` on the kstar axis index: every non-positive
`axis_kstar` (there is no lower-bound check) is accepted without error,
and the stored kstar axis index is forced to 0 regardless of the value
supplied. -/
theorem one_dim_axis_kstar_forced_to_zero (ak rb : ℤ) (rs : ℚ) (h : ak ≤ 0) :
    CorrelationHandlerInit 1 [] rb rs ak (-1) [] =
      .ok { dim := 1, axisKstar := 0, normRange := [],
            rebinKstar := if 1 < rb then rb else 1,
            rescaleKstar := if 0 < rs then rs else 0,
            axisReweight := -1, ranges := [], doNormalization := false,
            doRebin := decide (1 < rb), doRescale := decide (0 < rs),
            doReweight := false, doRanges := false } := by
  have h' : ¬((0 : ℤ) < ak) := by omega
  norm_num [CorrelationHandlerInit, h']

/-- C9, witness for `one_dim_axis_kstar_forced_to_zero` at
`axis_kstar = -5` (with rebin factor 4 and rescale factor 2 also
active). -/
theorem one_dim_axis_kstar_forced_to_zero_witness :
    (-5 : ℤ) ≤ 0 ∧
    CorrelationHandlerInit 1 [] 4 2 (-5) (-1) [] =
      .ok { dim := 1, axisKstar := 0, normRange := [],
            rebinKstar := if (1 : ℤ) < 4 then 4 else 1,
            rescaleKstar := if (0 : ℚ) < 2 then 2 else 0,
            axisReweight := -1, ranges := [], doNormalization := false,
            doRebin := decide ((1 : ℤ) < 4), doRescale := decide ((0 : ℚ) < 2),
            doReweight := false, doRanges := false } :=
  ⟨by omega, one_dim_axis_kstar_forced_to_zero (-5) 4 2 (by omega)⟩

theorem optGE_none (n : ℕ) : optGE n none := by
  intro r h
  cases h

theorem optGE_some {n r : ℕ} (h : n ≤ r) : optGE n (some r) := by
  intro q hq
  cases hq
  exact h

theorem pres_refl {n : ℕ} {s : Store} (h : n ≤ s.next) : Pres n s s :=
  ⟨h, fun _ _ => rfl⟩

theorem pres_trans {n : ℕ} {s1 s2 s3 : Store} (h12 : Pres n s1 s2) (h23 : Pres n s2 s3) :
    Pres n s1 s3 :=
  ⟨h23.1, fun r hr => (h23.2 r hr).trans (h12.2 r hr)⟩

theorem alloc_next (s : Store) (o : Obj) : (s.alloc o).1.next = s.next + 1 := rfl

theorem alloc_ref (s : Store) (o : Obj) : (s.alloc o).2 = s.next := rfl

theorem write_next (s : Store) (ref : Option ℕ) (o : Obj) : (s.write ref o).next = s.next := by
  cases ref <;> rfl

theorem pres_alloc {n : ℕ} {s : Store} (h : n ≤ s.next) (o : Obj) :
    Pres n s (s.alloc o).1 := by
  constructor
  · rw [alloc_next]
    omega
  · intro r hr
    have : r ≠ s.next := by omega
    simp [Store.alloc, this]

theorem pres_write {n : ℕ} {s : Store} {ref : Option ℕ} (h : n ≤ s.next)
    (href : optGE n ref) (o : Obj) : Pres n s (s.write ref o) := by
  cases ref with
  | none => exact pres_refl h
  | some q =>
    constructor
    · rw [write_next]
      exact h
    · intro r hr
      have hq : n ≤ q := href q rfl
      have : r ≠ q := by omega
      simp [Store.write, this]

theorem hstge_mono {n m : ℕ} {σ : HState} (h : HStGE n σ) (hmn : m ≤ n) : HStGE m σ := by
  unfold HStGE at h ⊢
  unfold optGE at h ⊢
  obtain ⟨h1, h2, h3, h4, h5, h6, h7, h8, h9, h10, h11, h12, h13, h14, h15, h16, h17, h18, h19⟩ := h
  exact ⟨fun r hr => le_trans hmn (h1 r hr), fun r hr => le_trans hmn (h2 r hr),
    fun r hr => le_trans hmn (h3 r hr), fun r hr => le_trans hmn (h4 r hr),
    fun r hr => le_trans hmn (h5 r hr), fun r hr => le_trans hmn (h6 r hr),
    fun r hr => le_trans hmn (h7 r hr), fun r hr => le_trans hmn (h8 r hr),
    fun r hr => le_trans hmn (h9 r hr), fun r hr => le_trans hmn (h10 r hr),
    fun r hr => le_trans hmn (h11 r hr), fun r hr => le_trans hmn (h12 r hr),
    fun r hr => le_trans hmn (h13 r hr), fun r hr => le_trans hmn (h14 r hr),
    fun r hr => le_trans hmn (h15 r hr), fun r hr => le_trans hmn (h16 r hr),
    fun r hr => le_trans hmn (h17 r hr), fun r hr => le_trans hmn (h18 r hr),
    fun r hr => le_trans hmn (h19 r hr)⟩

theorem stepOK_doRebin : StepOK doRebinStep := by
  intro n σ s hσ hs
  have hse : optGE n σ.se := hσ.1
  have hme : optGE n σ.me := hσ.2.1
  unfold doRebinStep
  split
  all_goals
    refine ⟨hσ, ?_⟩
    refine pres_trans (pres_write hs hse _) (pres_write ?_ hme _)
    rw [write_next]
    exact hs

theorem stepOK_doRanges : StepOK doRangesStep := by
  intro n σ s hσ hs
  constructor
  · show HStGE n { σ with seIR := some s.next, meIR := some (s.next + 1) }
    obtain ⟨h1, h2, h3, h4, hrest⟩ := hσ
    exact ⟨h1, h2, optGE_some hs, optGE_some (by omega), hrest⟩
  · show Pres n s ((((s.alloc _).1.alloc _).1.write (some s.next) _).write
      (some (s.next + 1)) _)
    refine pres_trans (pres_alloc hs _) (pres_trans (pres_alloc ?_ _)
      (pres_trans (pres_write ?_ (optGE_some hs) _) (pres_write ?_ (optGE_some ?_) _)))
    · rw [alloc_next]; omega
    · rw [alloc_next, alloc_next]; omega
    · rw [write_next, alloc_next, alloc_next]; omega
    · omega

theorem stepOK_doProjections : StepOK doProjectionsStep := by
  intro n σ s hσ hs
  constructor
  · show HStGE n { σ with se1d := some s.next, me1d := some (s.next + 1) }
    obtain ⟨h1, h2, h3, h4, h5, h6, h7, h8, h9, h10, hrest⟩ := hσ
    exact ⟨h1, h2, h3, h4, h5, h6, h7, optGE_some hs, h9, optGE_some (by omega), hrest⟩
  · show Pres n s ((s.alloc _).1.alloc _).1
    refine pres_trans (pres_alloc hs _) (pres_alloc ?_ _)
    rw [alloc_next]
    omega

theorem pres_alloc' {n : ℕ} {s s' : Store} (h : Pres n s s') (o : Obj) :
    Pres n s (s'.alloc o).1 :=
  pres_trans h (pres_alloc h.1 o)

theorem pres_write' {n : ℕ} {s s' : Store} {ref : Option ℕ} (h : Pres n s s')
    (href : optGE n ref) (o : Obj) : Pres n s (s'.write ref o) :=
  pres_trans h (pres_write h.1 href o)

theorem stepOK_seq {f g : HState → Store → HState × Store}
    (hf : StepOK f) (hg : StepOK g) : StepOK (stepSeq f g) := by
  intro n σ s hσ hs
  obtain ⟨h1, h2⟩ := hf n σ s hσ hs
  obtain ⟨h3, h4⟩ := hg n (f σ s).1 (f σ s).2 h1 h2.1
  exact ⟨h3, pres_trans h2 h4⟩

theorem stepOK_if (c : HConfig → Bool) {f : HState → Store → HState × Store}
    (hf : StepOK f) : StepOK (stepIf c f) := by
  intro n σ s hσ hs
  unfold stepIf
  split
  · exact hf n σ s hσ hs
  · exact ⟨hσ, pres_refl hs⟩

theorem stepOK_doProjectionsWithRw : StepOK doProjectionsWithRwStep := by
  intro n σ s hσ hs
  obtain ⟨h1, h2, h3, h4, h5, h6, h7, h8, h9, h10, h11, h12, hrest⟩ := hσ
  constructor
  · show HStGE n
        { σ with
            se2d := some s.next
            me2d := some (s.next + 1)
            me2dRw := some (s.next + 2)
            me1dRw := some (s.next + 3) }
    exact ⟨h1, h2, h3, h4, optGE_some hs, optGE_some (by omega), optGE_some (by omega),
      h8, h9, h10, h11, optGE_some (by omega), hrest⟩
  · show Pres n s ((((s.alloc _).1.alloc _).1.alloc _).1.alloc _).1
    exact pres_alloc' (pres_alloc' (pres_alloc' (pres_alloc' (pres_refl hs) _) _) _) _

theorem stepOK_doCorrelationsBase : StepOK doCorrelationsBase := by
  intro n σ s hσ hs
  obtain ⟨h1, h2, h3, h4, h5, h6, h7, h8, h9, h10, h11, h12, h13, h14, hrest⟩ := hσ
  constructor
  · show HStGE n { σ with cf := some s.next }
    exact ⟨h1, h2, h3, h4, h5, h6, h7, h8, h9, h10, h11, h12, h13, optGE_some hs, hrest⟩
  · show Pres n s ((s.alloc _).1.write (some s.next) _)
    exact pres_write' (pres_alloc' (pres_refl hs) _) (optGE_some hs) _

theorem stepOK_doCorrelationsRw : StepOK doCorrelationsRw := by
  intro n σ s hσ hs
  obtain ⟨h1, h2, h3, h4, h5, h6, h7, h8, h9, h10, h11, h12, h13, h14, h15, hrest⟩ := hσ
  constructor
  · show HStGE n { σ with cfRw := some s.next }
    exact ⟨h1, h2, h3, h4, h5, h6, h7, h8, h9, h10, h11, h12, h13, h14,
      optGE_some hs, hrest⟩
  · show Pres n s ((s.alloc _).1.write (some s.next) _)
    exact pres_write' (pres_alloc' (pres_refl hs) _) (optGE_some hs) _

theorem stepOK_doCorrelations : StepOK doCorrelationsStep :=
  stepOK_seq stepOK_doCorrelationsBase (stepOK_if _ stepOK_doCorrelationsRw)

theorem stepOK_doNormalizationsBase : StepOK doNormalizationsBase := by
  intro n σ s hσ hs
  obtain ⟨h1, h2, h3, h4, h5, h6, h7, h8, h9, h10, h11, h12, h13, h14, hrest⟩ := hσ
  constructor
  · show HStGE n
        { σ with
            se1dN := some s.next
            me1dN := some (s.next + 1)
            cf := σ.cf }
    exact ⟨h1, h2, h3, h4, h5, h6, h7, h8, optGE_some hs, h10,
      optGE_some (by omega), h12, h13, h14, hrest⟩
  · show Pres n s
        (((((s.alloc _).1.write (some s.next) _).alloc _).1.write
          (some (s.next + 1)) _).write σ.cf _)
    exact pres_write' (pres_write' (pres_alloc' (pres_write' (pres_alloc'
      (pres_refl hs) _) (optGE_some hs) _) _) (optGE_some (by omega)) _) h14 _

theorem stepOK_doNormalizationsRw : StepOK doNormalizationsRw := by
  intro n σ s hσ hs
  obtain ⟨h1, h2, h3, h4, h5, h6, h7, h8, h9, h10, h11, h12, h13, h14, h15, hrest⟩ := hσ
  constructor
  · show HStGE n
        { σ with
            me1dRwN := some s.next
            cfRw := σ.cfRw }
    exact ⟨h1, h2, h3, h4, h5, h6, h7, h8, h9, h10, h11, h12,
      optGE_some hs, h14, h15, hrest⟩
  · show Pres n s (((s.alloc _).1.write (some s.next) _).write σ.cfRw _)
    exact pres_write' (pres_write' (pres_alloc' (pres_refl hs) _) (optGE_some hs) _) h15 _

theorem stepOK_doNormalizations : StepOK doNormalizationsStep :=
  stepOK_seq stepOK_doNormalizationsBase (stepOK_if _ stepOK_doNormalizationsRw)

theorem stepOK_doRecenterBase : StepOK doRecenterBase := by
  intro n σ s hσ hs
  obtain ⟨h1, h2, h3, h4, h5, h6, h7, h8, h9, h10, h11, h12, h13, h14, h15, h16, hrest⟩ := hσ
  constructor
  · show HStGE n { σ with cfRec := some s.next }
    exact ⟨h1, h2, h3, h4, h5, h6, h7, h8, h9, h10, h11, h12, h13, h14, h15,
      optGE_some hs, hrest⟩
  · show Pres n s (s.alloc _).1
    exact pres_alloc' (pres_refl hs) _

theorem stepOK_doRecenterRw : StepOK doRecenterRw := by
  intro n σ s hσ hs
  obtain ⟨h1, h2, h3, h4, h5, h6, h7, h8, h9, h10, h11, h12, h13, h14, h15, h16, h17, hrest⟩ := hσ
  constructor
  · show HStGE n { σ with cfRwRec := some s.next }
    exact ⟨h1, h2, h3, h4, h5, h6, h7, h8, h9, h10, h11, h12, h13, h14, h15, h16,
      optGE_some hs, hrest⟩
  · show Pres n s (s.alloc _).1
    exact pres_alloc' (pres_refl hs) _

theorem stepOK_doRecenter : StepOK doRecenterStep :=
  stepOK_seq stepOK_doRecenterBase (stepOK_if _ stepOK_doRecenterRw)

theorem stepOK_doRescaleBase : StepOK doRescaleBase := by
  intro n σ s hσ hs
  obtain ⟨h1, h2, h3, h4, h5, h6, h7, h8, h9, h10, h11, h12, h13, h14, hrest⟩ := hσ
  constructor
  · show HStGE n
        { σ with
            se1d := some s.next
            se1dN := some (s.next + 1)
            me1d := some (s.next + 2)
            me1dN := some (s.next + 3)
            cf := some (s.next + 4) }
    exact ⟨h1, h2, h3, h4, h5, h6, h7, optGE_some hs, optGE_some (by omega),
      optGE_some (by omega), optGE_some (by omega), h12, h13,
      optGE_some (by omega), hrest⟩
  · show Pres n s (((((s.alloc _).1.alloc _).1.alloc _).1.alloc _).1.alloc _).1
    exact pres_alloc' (pres_alloc' (pres_alloc' (pres_alloc' (pres_alloc'
      (pres_refl hs) _) _) _) _) _

theorem stepOK_doRescaleRw : StepOK doRescaleRw := by
  intro n σ s hσ hs
  obtain ⟨h1, h2, h3, h4, h5, h6, h7, h8, h9, h10, h11, h12, h13, h14, h15, hrest⟩ := hσ
  constructor
  · show HStGE n
        { σ with
            se2d := some s.next
            me2d := some (s.next + 1)
            me1dRw := some (s.next + 2)
            cfRw := some (s.next + 3) }
    exact ⟨h1, h2, h3, h4, optGE_some hs, optGE_some (by omega), h7, h8, h9, h10, h11,
      optGE_some (by omega), h13, h14, optGE_some (by omega), hrest⟩
  · show Pres n s ((((s.alloc _).1.alloc _).1.alloc _).1.alloc _).1
    exact pres_alloc' (pres_alloc' (pres_alloc' (pres_alloc' (pres_refl hs) _) _) _) _

theorem stepOK_doRescaleRecen : StepOK doRescaleRecen := by
  intro n σ s hσ hs
  obtain ⟨h1, h2, h3, h4, h5, h6, h7, h8, h9, h10, h11, h12, h13, h14, h15, h16, hrest⟩ := hσ
  constructor
  · show HStGE n { σ with cfRec := some s.next }
    exact ⟨h1, h2, h3, h4, h5, h6, h7, h8, h9, h10, h11, h12, h13, h14, h15,
      optGE_some hs, hrest⟩
  · show Pres n s (s.alloc _).1
    exact pres_alloc' (pres_refl hs) _

theorem stepOK_doRescaleRecenRw : StepOK doRescaleRecenRw := by
  intro n σ s hσ hs
  obtain ⟨h1, h2, h3, h4, h5, h6, h7, h8, h9, h10, h11, h12, h13, h14, h15, h16, h17, hrest⟩ := hσ
  constructor
  · show HStGE n { σ with cfRwRec := some s.next }
    exact ⟨h1, h2, h3, h4, h5, h6, h7, h8, h9, h10, h11, h12, h13, h14, h15, h16,
      optGE_some hs, hrest⟩
  · show Pres n s (s.alloc _).1
    exact pres_alloc' (pres_refl hs) _

theorem stepOK_doRescale : StepOK doRescaleStep :=
  stepOK_seq stepOK_doRescaleBase
    (stepOK_seq (stepOK_if _ stepOK_doRescaleRw)
      (stepOK_if _ (stepOK_seq stepOK_doRescaleRecen (stepOK_if _ stepOK_doRescaleRecenRw))))

theorem stepOK_noRebinSpawn {recurse : HState → Store → HState × Store}
    (hrec : StepOK recurse) : StepOK (noRebinSpawnStep recurse) := by
  intro n σ s hσ hs
  have hσn : HStGE n (HandlerCtor s (σ.se.getD 0) (σ.me.getD 0)
      { σ.cfg with rebinKstar := 1, doRebin := false }).1 := by
    show HStGE n
        { se := some s.next
          me := some (s.next + 1)
          cfg := { σ.cfg with rebinKstar := 1, doRebin := false } }
    exact ⟨optGE_some hs, optGE_some (by omega), optGE_none n, optGE_none n,
      optGE_none n, optGE_none n, optGE_none n, optGE_none n, optGE_none n,
      optGE_none n, optGE_none n, optGE_none n, optGE_none n, optGE_none n,
      optGE_none n, optGE_none n, optGE_none n, optGE_none n, optGE_none n⟩
  have hp1 : Pres n s (HandlerCtor s (σ.se.getD 0) (σ.me.getD 0)
      { σ.cfg with rebinKstar := 1, doRebin := false }).2 := by
    show Pres n s ((s.alloc _).1.alloc _).1
    exact pres_alloc' (pres_alloc' (pres_refl hs) _) _
  obtain ⟨hσ2, hp2⟩ := hrec n _ _ hσn hp1.1
  have hσ3 : HStGE n { σ with
      nMe1d := (recurse (HandlerCtor s (σ.se.getD 0) (σ.me.getD 0)
        { σ.cfg with rebinKstar := 1, doRebin := false }).1
        (HandlerCtor s (σ.se.getD 0) (σ.me.getD 0)
        { σ.cfg with rebinKstar := 1, doRebin := false }).2).1.me1d
      nMe1dRw := (recurse (HandlerCtor s (σ.se.getD 0) (σ.me.getD 0)
        { σ.cfg with rebinKstar := 1, doRebin := false }).1
        (HandlerCtor s (σ.se.getD 0) (σ.me.getD 0)
        { σ.cfg with rebinKstar := 1, doRebin := false }).2).1.me1dRw } := by
    obtain ⟨g1, g2, g3, g4, g5, g6, g7, g8, g9, g10, g11, g12, g13, g14, g15, g16, g17,
      g18, g19⟩ := hσ
    obtain ⟨k1, k2, k3, k4, k5, k6, k7, k8, k9, k10, k11, k12, krest⟩ := hσ2
    exact ⟨g1, g2, g3, g4, g5, g6, g7, g8, g9, g10, g11, g12, g13, g14, g15, g16, g17,
      k10, k12⟩
  obtain ⟨hσ4, hp4⟩ := stepOK_doRebin n _ _ hσ3 (pres_trans hp1 hp2).1
  exact ⟨hσ4, pres_trans (pres_trans hp1 hp2) hp4⟩

theorem write_cells_eq (s : Store) (r : ℕ) (o : Obj) : (s.write (some r) o).cells r = o := by
  simp [Store.write]

theorem write_cells_ne (s : Store) (r : ℕ) (o : Obj) (q : ℕ) (h : q ≠ r) :
    (s.write (some r) o).cells q = s.cells q := by
  simp [Store.write, h]

theorem alloc_cells_ne (s : Store) (o : Obj) (q : ℕ) (h : q ≠ s.next) :
    (s.alloc o).1.cells q = s.cells q := by
  simp [Store.alloc, h]

theorem alloc_cells_at (s : Store) (o : Obj) (q : ℕ) (h : q = s.next) :
    (s.alloc o).1.cells q = o := by
  subst h
  simp [Store.alloc]

theorem rd1_cells {s : Store} {r : ℕ} {h : Hist1} (hc : s.cells r = .h1 h) :
    s.rd1 (some r) = h := by
  simp [Store.rd1, hc]

theorem normref_cells_self (s : Store) (r : ℕ) (h : Hist1) (lo hi : ℚ)
    (hc : s.cells r = .h1 h) :
    (s.write (some r) (.h1 (Normalize (s.rd1 (some r)) lo hi))).cells r =
      .h1 (Normalize h lo hi) := by
  rw [write_cells_eq, rd1_cells hc]

theorem finalTouchD_ok (fuel : ℕ) : StepOK (FinalTouchD fuel) := by
  induction fuel with
  | zero =>
    intro n σ s hσ hs
    exact ⟨hσ, pres_refl hs⟩
  | succ fuel ih =>
    exact stepOK_seq (stepOK_if _ (stepOK_noRebinSpawn ih))
      (stepOK_seq (stepOK_if _ stepOK_doRanges)
        (stepOK_seq stepOK_doProjections
          (stepOK_seq (stepOK_if _ stepOK_doProjectionsWithRw)
            (stepOK_seq stepOK_doCorrelations
              (stepOK_seq (stepOK_if _ stepOK_doNormalizations)
                (stepOK_seq (stepOK_if _ stepOK_doRecenter)
                  (stepOK_if _ stepOK_doRescale)))))))

/-- C8.  The constructor clones: the handler's `se`/`me` attributes are
two *fresh* cells (references `next` and `next+1`, distinct from any
pre-existing reference) holding copies of the caller's histograms.  And
a full `FinalTouch` run — rebin (with the nested no-rebin handler),
range restriction, projections, reweighting, division, normalization,
recentering, rescaling — leaves every pre-existing store cell, in
particular the caller's original SE and ME (contents, errors and axes
alike), exactly as it was. -/
theorem handler_clones_and_never_mutates_originals (s0 : Store) (seR meR : ℕ)
    (cfg : HConfig) (_hse : seR < s0.next) (hme : meR < s0.next) :
    ((HandlerCtor s0 seR meR cfg).1.se = some s0.next ∧
      (HandlerCtor s0 seR meR cfg).1.me = some (s0.next + 1) ∧
      (HandlerCtor s0 seR meR cfg).2.cells s0.next = s0.cells seR ∧
      (HandlerCtor s0 seR meR cfg).2.cells (s0.next + 1) = s0.cells meR) ∧
    ∀ r, r < s0.next →
      (FinalTouch (HandlerCtor s0 seR meR cfg).1 (HandlerCtor s0 seR meR cfg).2).2.cells r =
        s0.cells r := by
  constructor
  · refine ⟨rfl, rfl, ?_, ?_⟩
    · show (((s0.alloc _).1.alloc _).1).cells s0.next = s0.cells seR
      rw [alloc_cells_ne _ _ _ (by simp only [alloc_next]; omega)]
      exact alloc_cells_at _ _ _ rfl
    · show (((s0.alloc _).1.alloc _).1).cells (s0.next + 1) = s0.cells meR
      rw [alloc_cells_at _ _ _ (by simp only [alloc_next])]
      exact alloc_cells_ne _ _ _ (by omega)
  · intro r hr
    have hσ : HStGE s0.next (HandlerCtor s0 seR meR cfg).1 := by
      show HStGE s0.next
          { se := some s0.next
            me := some (s0.next + 1)
            cfg := cfg }
      exact ⟨optGE_some le_rfl, optGE_some (by omega), optGE_none _, optGE_none _,
        optGE_none _, optGE_none _, optGE_none _, optGE_none _, optGE_none _,
        optGE_none _, optGE_none _, optGE_none _, optGE_none _, optGE_none _,
        optGE_none _, optGE_none _, optGE_none _, optGE_none _, optGE_none _⟩
    have hp1 : Pres s0.next s0 (HandlerCtor s0 seR meR cfg).2 := by
      show Pres s0.next s0 ((s0.alloc _).1.alloc _).1
      exact pres_alloc' (pres_alloc' (pres_refl le_rfl) _) _
    obtain ⟨_, hp2⟩ := finalTouchD_ok 2 s0.next _ _ hσ hp1.1
    exact (pres_trans hp1 hp2).2 r hr

/-- C8, witness for `handler_clones_and_never_mutates_originals` on the
concrete two-cell store with the fully featured configuration. -/
theorem handler_clones_witness :
    (0 < storeEx.next ∧ 1 < storeEx.next) ∧
    (((HandlerCtor storeEx 0 1 cfgEx).1.se = some storeEx.next ∧
      (HandlerCtor storeEx 0 1 cfgEx).1.me = some (storeEx.next + 1) ∧
      (HandlerCtor storeEx 0 1 cfgEx).2.cells storeEx.next = storeEx.cells 0 ∧
      (HandlerCtor storeEx 0 1 cfgEx).2.cells (storeEx.next + 1) = storeEx.cells 1) ∧
    ∀ r, r < storeEx.next →
      (FinalTouch (HandlerCtor storeEx 0 1 cfgEx).1
        (HandlerCtor storeEx 0 1 cfgEx).2).2.cells r = storeEx.cells r) :=
  ⟨⟨by decide, by decide⟩,
    handler_clones_and_never_mutates_originals storeEx 0 1 cfgEx (by decide) (by decide)⟩

/-- C10.  `Normalize` mutates in place and returns its argument: at the
store level, the returned reference is the very reference passed in and
that cell now holds the scaled histogram (every other cell untouched).
Consequently, in `DoNormalizations` the pipeline clones `se_1d` before
normalizing — the `se_1d` cell survives unchanged — but passes the
correlation function `cf` directly, so the `cf` cell itself ends up
holding the normalized contents (under the same reference). -/
theorem normalize_in_place_same_object :
    (∀ (s : Store) (r : ℕ) (h : Hist1) (lo hi : ℚ), s.cells r = .h1 h →
      (NormalizeRef s (some r) lo hi).2 = some r ∧
      (NormalizeRef s (some r) lo hi).1.cells r = .h1 (Normalize h lo hi) ∧
      ∀ q, q ≠ r → (NormalizeRef s (some r) lo hi).1.cells q = s.cells q) ∧
    (∀ (σ : HState) (s : Store) (a c : ℕ) (hcf : Hist1),
      σ.cfg.doReweight = false → σ.se1d = some a → σ.cf = some c → a ≠ c →
      a < s.next → c < s.next → s.cells c = .h1 hcf →
      (doNormalizationsStep σ s).1.cf = some c ∧
      (doNormalizationsStep σ s).2.cells a = s.cells a ∧
      (doNormalizationsStep σ s).2.cells c =
        .h1 (Normalize hcf (σ.cfg.normRange.getD 0 0) (σ.cfg.normRange.getD 1 0))) := by
  constructor
  · intro s r h lo hi hc
    refine ⟨rfl, ?_, ?_⟩
    · show (s.write (some r) (.h1 (Normalize (s.rd1 (some r)) lo hi))).cells r =
        .h1 (Normalize h lo hi)
      rw [write_cells_eq, rd1_cells hc]
    · intro q hq
      exact write_cells_ne _ _ _ _ hq
  · intro σ s a c hcf hrw hse1d hcfr hac ha hc hcell
    have hne1 : a ≠ s.next := by omega
    have hne2 : a ≠ s.next + 1 := by omega
    have hne3 : c ≠ s.next := by omega
    have hne4 : c ≠ s.next + 1 := by omega
    have hred : doNormalizationsStep σ s = doNormalizationsBase σ s := by
      show stepIf (·.doReweight) doNormalizationsRw (doNormalizationsBase σ s).1
        (doNormalizationsBase σ s).2 = doNormalizationsBase σ s
      unfold stepIf
      have hcfg : (doNormalizationsBase σ s).1.cfg.doReweight = false := hrw
      simp [hcfg]
    rw [hred]
    refine ⟨?_, ?_, ?_⟩
    · show ({ σ with
          se1dN := some s.next
          me1dN := some (s.next + 1)
          cf := σ.cf } : HState).cf = some c
      exact hcfr
    · show (((((s.alloc _).1.write (some s.next) _).alloc _).1.write
          (some (s.next + 1)) _).write σ.cf _).cells a = s.cells a
      rw [hcfr]
      rw [write_cells_ne _ _ _ _ hac, write_cells_ne _ _ _ _ hne2,
        alloc_cells_ne _ _ _ (by simp only [write_next, alloc_next]; omega),
        write_cells_ne _ _ _ _ hne1, alloc_cells_ne _ _ _ hne1]
    · show ((((((s.alloc _).1.write (some s.next) _).alloc _).1.write
          (some (s.next + 1)) _)).write σ.cf (.h1 (Normalize
            ((((((s.alloc _).1.write (some s.next) _).alloc _).1.write
            (some (s.next + 1)) _)).rd1 σ.cf)
            (σ.cfg.normRange.getD 0 0) (σ.cfg.normRange.getD 1 0)))).cells c =
        .h1 (Normalize hcf (σ.cfg.normRange.getD 0 0) (σ.cfg.normRange.getD 1 0))
      rw [hcfr]
      refine normref_cells_self _ _ _ _ _ ?_
      rw [write_cells_ne _ _ _ _ hne4,
        alloc_cells_ne _ _ _ (by simp only [write_next, alloc_next]; omega),
        write_cells_ne _ _ _ _ hne3, alloc_cells_ne _ _ _ hne3]
      exact hcell

/-- C10, witness for `normalize_in_place_same_object` at concrete
stores: part one at `store1Ex` reference 0 (holding `normCex`), part
two for `hstEx` over `store1Ex`. -/
theorem normalize_in_place_same_object_witness :
    (store1Ex.cells 0 = .h1 normCex ∧
      ((NormalizeRef store1Ex (some 0) 0 1).2 = some 0 ∧
        (NormalizeRef store1Ex (some 0) 0 1).1.cells 0 = .h1 (Normalize normCex 0 1) ∧
        ∀ q, q ≠ 0 → (NormalizeRef store1Ex (some 0) 0 1).1.cells q = store1Ex.cells q)) ∧
    ((doNormalizationsStep hstEx store1Ex).1.cf = some 0 ∧
      (doNormalizationsStep hstEx store1Ex).2.cells 1 = store1Ex.cells 1 ∧
      (doNormalizationsStep hstEx store1Ex).2.cells 0 =
        .h1 (Normalize normCex (hstEx.cfg.normRange.getD 0 0)
          (hstEx.cfg.normRange.getD 1 0))) := by
  constructor
  · exact ⟨rfl, normalize_in_place_same_object.1 store1Ex 0 normCex 0 1 rfl⟩
  · exact normalize_in_place_same_object.2 hstEx store1Ex 1 0 normCex rfl rfl rfl
      (by omega) (by decide) (by decide) rfl

/-- C2, witness for the universally quantified part of
`recenter_content_weighted_mean` at the scenario input (`cfEx`, `meEx`,
first merged bin). -/
theorem recenter_content_weighted_mean_witness :
    0 < cfEx.n ∧ 0 < recenterNorm meEx (meEx.n / cfEx.n) 1 ∧
    (∃ p, (Recenter cfEx meEx false)[0]? = some p ∧
      p.x = recenterValue meEx (meEx.n / cfEx.n) 1 / recenterNorm meEx (meEx.n / cfEx.n) 1 ∧
      p.ex2 = ((recenterIdxs (meEx.n / cfEx.n) 1).map
          (fun j => meEx.cont j * (meEx.GetBinCenter j - p.x) ^ 2)).sum /
        recenterNorm meEx (meEx.n / cfEx.n) 1 ∧
      p.y = cfEx.cont 1 ∧ p.ey2 = cfEx.w2 1) := by
  have hn : 0 < recenterNorm meEx (meEx.n / cfEx.n) 1 := by
    norm_num [recenterNorm, recenterIdxs, meEx, cfEx, List.range_succ]
  exact ⟨by norm_num [cfEx], hn,
    recenter_content_weighted_mean.1 cfEx meEx 0 (by norm_num [cfEx]) hn⟩

/-- C7, witness for `normalize_zero_integral_reports_noop` at the
all-zero histogram with range `(0, 1)`. -/
theorem normalize_zero_integral_reports_noop_witness :
    NormIntegral zeroHist 0 1 = 0 ∧ NormalizeRun zeroHist 0 1 = (zeroHist, true) := by
  have hI : NormIntegral zeroHist 0 1 = 0 := by
    norm_num [NormIntegral, Hist1.IntegralW, Hist1.binRange, Hist1.FindBin, Axis.FindBin,
      Hist1.axis, zeroHist, List.range_succ, List.range']
  exact ⟨hI, normalize_zero_integral_reports_noop zeroHist 0 1 hI⟩

